import Mathlib

/-!
Verification development for the boring-podcast publish pipeline.

The definitions below are a shallow embedding of the repository's code:

* `tools/publish.py` — the publish pipeline orchestrator (`publish_episode`,
  `log_progress`, `load_metadata`, `main`);
* `tools/audio.py` — the audio extraction executor (`extract_audio`);
* `tools/rss_feed.py` — the feed regeneration executor (`update_rss_feed`);
* `kurt/api/podcast.py` — the progress-log reader inside `_load_episode`.

File-system state is passed explicitly: an `EpisodeFiles` record tracks which
asset files exist in the episode directory, the progress log is a list of
`LogEntry` values (rendered to text by `logLine`), and each external executor
is an oracle (`ExecResult`) saying whether the underlying call succeeds and
with what detail or error message.
-/

namespace BoringPodcast

/-- Outcome column of a progress-log entry: START, DONE, FAIL or SKIP. -/
inductive Outcome where
  | START : Outcome
  | DONE : Outcome
  | FAIL : Outcome
  | SKIP : Outcome
deriving DecidableEq, Repr

/-- One progress-log event: step name, outcome, free-text detail
(`log_progress` arguments in `tools/publish.py`). -/
structure LogEntry where
  step : String
  outcome : Outcome
  detail : String
deriving DecidableEq, Repr

/-- Which asset files exist in the episode directory: `video` (the configured
video file), `audio.mp3`, `transcript.md`, `show-notes.md`. -/
structure EpisodeFiles where
  hasVideo : Bool
  hasAudio : Bool
  hasTranscript : Bool
  hasShowNotes : Bool
deriving DecidableEq, Repr

/-- The parts of `metadata.toml` that `publish_episode` consults: the
configured video filename (`files.get("video", "video.mp4")`) and the three
publish-target flags (`publish.get("youtube"/"spotify"/"apple", False)`). -/
structure Metadata where
  videoName : String
  pubYoutube : Bool
  pubSpotify : Bool
  pubApple : Bool
deriving DecidableEq, Repr

/-- Result of invoking one step executor: success with the detail string the
orchestrator will log on DONE (artifact size, remote URL, ...), or an
exception carrying a message. -/
inductive ExecResult where
  | ok : String → ExecResult
  | err : String → ExecResult
deriving DecidableEq, Repr

/-- `ExecResult.ok` test. -/
def ExecResult.isOk : ExecResult → Bool
  | .ok _ => true
  | .err _ => false

/-- The five executor oracles of one run: `extract_audio`,
`generate_transcript`, `generate_show_notes`, `upload_to_youtube`,
`update_rss_feed`. -/
structure Executors where
  audioExec : ExecResult
  transcriptExec : ExecResult
  showNotesExec : ExecResult
  youtubeExec : ExecResult
  rssExec : ExecResult
deriving DecidableEq, Repr

/-- `all_steps` in `publish_episode`. -/
def all_steps : List String := ["audio", "transcript", "show_notes", "youtube", "rss"]

/-- Step 1 of `publish_episode` (lines 77-90): extract audio.  Returns the
log entries it appends, the updated file state, and whether the run halts
(the `return` on audio FAIL). -/
def audioStep (meta : Metadata) (st : EpisodeFiles) (ex : ExecResult) :
    List LogEntry × EpisodeFiles × Bool :=
  if !st.hasVideo then
    ([⟨"audio", .SKIP, "No video file: " ++ meta.videoName⟩], st, false)
  else if st.hasAudio then
    ([⟨"audio", .SKIP, "audio.mp3 already exists"⟩], st, false)
  else
    match ex with
    | .ok d =>
        ([⟨"audio", .START, "Extracting from " ++ meta.videoName⟩,
          ⟨"audio", .DONE, d⟩], { st with hasAudio := true }, false)
    | .err m =>
        ([⟨"audio", .START, "Extracting from " ++ meta.videoName⟩,
          ⟨"audio", .FAIL, m⟩], st, true)

/-- Step 2 of `publish_episode` (lines 92-104): generate transcript. -/
def transcriptStep (st : EpisodeFiles) (ex : ExecResult) :
    List LogEntry × EpisodeFiles :=
  if st.hasTranscript then
    ([⟨"transcript", .SKIP, "transcript.md already exists"⟩], st)
  else if !st.hasAudio then
    ([⟨"transcript", .SKIP, "No audio.mp3 yet"⟩], st)
  else
    match ex with
    | .ok d =>
        ([⟨"transcript", .START, "Transcribing with Whisper"⟩,
          ⟨"transcript", .DONE, d⟩], { st with hasTranscript := true })
    | .err m =>
        ([⟨"transcript", .START, "Transcribing with Whisper"⟩,
          ⟨"transcript", .FAIL, m⟩], st)

/-- Step 3 of `publish_episode` (lines 106-118): generate show notes. -/
def showNotesStep (st : EpisodeFiles) (ex : ExecResult) :
    List LogEntry × EpisodeFiles :=
  if st.hasShowNotes then
    ([⟨"show_notes", .SKIP, "show-notes.md already exists"⟩], st)
  else if !st.hasTranscript then
    ([⟨"show_notes", .SKIP, "No transcript yet"⟩], st)
  else
    match ex with
    | .ok d =>
        ([⟨"show_notes", .START, "Generating with Claude"⟩,
          ⟨"show_notes", .DONE, d⟩], { st with hasShowNotes := true })
    | .err m =>
        ([⟨"show_notes", .START, "Generating with Claude"⟩,
          ⟨"show_notes", .FAIL, m⟩], st)

/-- Step 4 of `publish_episode` (lines 120-130): upload to YouTube.  Local
file state is unchanged by this step. -/
def youtubeStep (st : EpisodeFiles) (ex : ExecResult) : List LogEntry :=
  if !st.hasVideo then
    [⟨"youtube", .SKIP, "No video file"⟩]
  else
    match ex with
    | .ok url => [⟨"youtube", .START, "Uploading to YouTube"⟩,
                  ⟨"youtube", .DONE, url⟩]
    | .err m => [⟨"youtube", .START, "Uploading to YouTube"⟩,
                 ⟨"youtube", .FAIL, m⟩]

/-- Step 5 of `publish_episode` (lines 132-142): update RSS feed.  Local
file state is unchanged by this step. -/
def rssStep (st : EpisodeFiles) (ex : ExecResult) : List LogEntry :=
  if !st.hasAudio then
    [⟨"rss", .SKIP, "No audio file"⟩]
  else
    match ex with
    | .ok url => [⟨"rss", .START, "Updating RSS feed"⟩,
                  ⟨"rss", .DONE, url⟩]
    | .err m => [⟨"rss", .START, "Updating RSS feed"⟩,
                 ⟨"rss", .FAIL, m⟩]

/-- The body of `publish_episode` after metadata is loaded and `run_steps`
computed: the five step blocks in fixed order, each guarded by membership in
`run_steps` (and, for youtube/rss, by the publish-target flags), with the
early `return` when the audio executor fails.  Returns the appended log
entries in order and the final file state. -/
def publishStepsRun (meta : Metadata) (run_steps : List String)
    (st : EpisodeFiles) (ex : Executors) : List LogEntry × EpisodeFiles :=
  let a := if run_steps.contains "audio" then audioStep meta st ex.audioExec
           else ([], st, false)
  if a.2.2 then (a.1, a.2.1)
  else
    let st1 := a.2.1
    let t := if run_steps.contains "transcript" then transcriptStep st1 ex.transcriptExec
             else ([], st1)
    let st2 := t.2
    let s := if run_steps.contains "show_notes" then showNotesStep st2 ex.showNotesExec
             else ([], st2)
    let st3 := s.2
    let y := if run_steps.contains "youtube" && meta.pubYoutube then
               youtubeStep st3 ex.youtubeExec
             else []
    let r := if run_steps.contains "rss" && (meta.pubSpotify || meta.pubApple) then
               rssStep st3 ex.rssExec
             else []
    (a.1 ++ t.1 ++ s.1 ++ y ++ r, st3)

/-- `run_steps = steps or all_steps` in `publish_episode`: Python `or`
falls back to `all_steps` when `steps` is `None` or the empty list. -/
def runStepsOf : Option (List String) → List String
  | none => all_steps
  | some [] => all_steps
  | some l => l

/-- `publish_episode(episode_dir, steps)`: load metadata (raising
`FileNotFoundError` when `metadata.toml` is absent, before any log entry is
written), then run the step blocks.  `metaOpt = none` models an absent
metadata document. -/
def publish_episode (metaOpt : Option Metadata) (steps : Option (List String))
    (st : EpisodeFiles) (ex : Executors) :
    Except String (List LogEntry × EpisodeFiles) :=
  match metaOpt with
  | none => .error "No metadata.toml in episode_dir"
  | some meta => .ok (publishStepsRun meta (runStepsOf steps) st ex)

/-- The `--steps` validation done by `argparse` in `main`
(`choices=["audio", "transcript", "show_notes", "youtube", "rss"]`): every
requested name must be in the fixed enumeration. -/
def validSteps : Option (List String) → Bool
  | none => true
  | some l => l.all (fun s => all_steps.contains s)

/-- `main`: parse arguments (rejecting any `--steps` value outside the fixed
enumeration before `publish_episode` is called), then run the pipeline. -/
def main (metaOpt : Option Metadata) (steps : Option (List String))
    (st : EpisodeFiles) (ex : Executors) :
    Except String (List LogEntry × EpisodeFiles) :=
  if validSteps steps then publish_episode metaOpt steps st ex
  else .error "argument --steps: invalid choice"

/-- Python format-spec padding `f"{s:<w}"`: left-justified in a field of
width `w`, i.e. spaces are appended on the right (no-op when `s` is already
at least `w` characters long). -/
def padRightTo (s : String) (w : Nat) : String :=
  s ++ String.mk (List.replicate (w - s.length) ' ')

/-- Text of an outcome as `log_progress` receives it. -/
def outcomeText : Outcome → String
  | .START => "START"
  | .DONE => "DONE"
  | .FAIL => "FAIL"
  | .SKIP => "SKIP"

/-- The line built by `log_progress` (`tools/publish.py` line 49) without
its terminating newline — this is what `splitlines()` hands back to the
log reader. -/
def logLineBody (ts : String) (e : LogEntry) : String :=
  "[" ++ ts ++ "] " ++ padRightTo e.step 20 ++ " " ++
    padRightTo (outcomeText e.outcome) 10 ++ " " ++ e.detail

/-- The full line written by `log_progress`:
`f"[{ts}] {step:<20} {status:<10} {detail}\n"`. -/
def logLine (ts : String) (e : LogEntry) : String :=
  logLineBody ts e ++ "\n"

/-- `log_progress` opens `publish.log` in mode `"a"` and writes the line:
the new file content is the old content with the line appended. -/
def log_progress (content ts : String) (e : LogEntry) : String :=
  content ++ logLine ts e

/-- Python `\w` on the ASCII log lines at hand: letters, digits, underscore. -/
def isWordChar (c : Char) : Bool :=
  c.isAlphanum || c == '_'

/-- Python `\s`: space, tab, newline, carriage return, vertical tab, form
feed. -/
def isSpaceChar (c : Char) : Bool :=
  c == ' ' || c == '\t' || c == '\n' || c == '\r' || c == '\x0b' || c == '\x0c'

/-- The part of the `_load_episode` regex after the closing bracket:
`\s+(\w+)\s+(START|DONE|FAIL)\s*(.*)`.  Each `\s+`/`\w+` is a maximal
non-empty run (backtracking inside them cannot succeed because each run is
followed by a character of an incompatible class), then one of the three
outcome literals must be a prefix of the remainder; `\s*(.*)` always
matches whatever is left. -/
def matchTail (cs : List Char) : Option (String × Outcome) :=
  match cs with
  | [] => none
  | c :: _ =>
    if !isSpaceChar c then none
    else
      let r1 := cs.dropWhile isSpaceChar
      match r1 with
      | [] => none
      | c1 :: _ =>
        if !isWordChar c1 then none
        else
          let w := r1.takeWhile isWordChar
          let r2 := r1.dropWhile isWordChar
          match r2 with
          | [] => none
          | c2 :: _ =>
            if !isSpaceChar c2 then none
            else
              let r3 := r2.dropWhile isSpaceChar
              if "START".data.isPrefixOf r3 then some (String.mk w, .START)
              else if "DONE".data.isPrefixOf r3 then some (String.mk w, .DONE)
              else if "FAIL".data.isPrefixOf r3 then some (String.mk w, .FAIL)
              else none

/-- The `\[.*?\]` part of the `_load_episode` regex with backtracking: try
each `]` of the line in order as the closing bracket; the line matches when
some choice lets the tail pattern match. -/
def matchAfterBracket : List Char → Option (String × Outcome)
  | [] => none
  | c :: rest =>
    if c == ']' then
      match matchTail rest with
      | some r => some r
      | none => matchAfterBracket rest
    else matchAfterBracket rest

/-- `re.match(r"\[.*?\]\s+(\w+)\s+(START|DONE|FAIL)\s*(.*)", line)` in
`_load_episode` (`kurt/api/podcast.py` line 68), reduced to the data the
reader keeps: the step name (group 1) and the outcome (group 2), or `none`
when the line does not match.  `re.match` anchors at the start, so the
first character must be `[`. -/
def parseLogLine (line : String) : Option (String × Outcome) :=
  match line.data with
  | '[' :: rest => matchAfterBracket rest
  | _ => none

/-- The `steps` mapping `_load_episode` builds from `publish.log`, read
back at one key: for each matching line in order, `steps[step] = outcome`,
so the returned status of a step is the outcome of its last matching
line. -/
def loadEpisodeSteps (lines : List String) (step : String) : Option Outcome :=
  lines.foldl
    (fun acc line =>
      match parseLogLine line with
      | some (s, o) => if s == step then some o else acc
      | none => acc)
    none

/-- Result of `subprocess.run`: return code and captured stderr (stdout is
not consulted by `extract_audio`). -/
structure ProcResult where
  returncode : Int
  stderr : String
deriving DecidableEq, Repr

/-- `extract_audio` (`tools/audio.py`): `FileNotFoundError` when the video
file is absent; `RuntimeError(f"ffmpeg failed: {result.stderr[:500]}")` when
ffmpeg exits non-zero (the captured stderr is truncated to its first 500
characters); success otherwise. -/
def extract_audio (videoExists : Bool) (videoPathStr : String)
    (r : ProcResult) : Except String Unit :=
  if !videoExists then .error ("Video not found: " ++ videoPathStr)
  else if r.returncode != 0 then .error ("ffmpeg failed: " ++ r.stderr.take 500)
  else .ok ()

/-- The parts of `podcast.toml` that `update_rss_feed` uses for the feed
URL: `website` and `media_base_url` are optional keys (`pc.get(...)`). -/
structure PodcastConfig where
  website : Option String
  media_base_url : Option String
deriving DecidableEq, Repr

/-- `website = pc.get("website") or pc.get("media_base_url", "")` in
`update_rss_feed`: Python `or` falls through when the first operand is
`None` or the empty string. -/
def configWebsite (pc : PodcastConfig) : String :=
  match pc.website with
  | some w => if w == "" then pc.media_base_url.getD "" else w
  | none => pc.media_base_url.getD ""

/-- One entry of the `episodes/` directory listing as `update_rss_feed`
and `_episode_dirs` see it: name, whether it is a directory, and whether
`metadata.toml` and `audio.mp3` exist inside it. -/
structure EpisodeDir where
  name : String
  isDir : Bool
  hasMetadata : Bool
  hasAudio : Bool
deriving DecidableEq, Repr

/-- Python `str.startswith`, on character data. -/
def startswith (s p : String) : Bool :=
  p.data.isPrefixOf s.data

/-- The episode-directory enumeration of `update_rss_feed` (lines 64-68):
directories only, names not starting with `.`, sorted by name. -/
def episodeDirsListing (ws : List EpisodeDir) : List EpisodeDir :=
  (ws.filter (fun d => d.isDir && !startswith d.name ".")).mergeSort
    (fun a b => decide (a.name ≤ b.name))

/-- `update_rss_feed(audio_path, episode_metadata)` (`tools/rss_feed.py`):
walks every episode directory in the workspace, skips those without
`metadata.toml` or without `audio.mp3`, adds a feed entry (whose id is the
directory name) for each remaining one, writes the feed, and returns
`f"{website}/feed/podcast.xml"`.  Its two per-episode arguments do not
influence which entries the regenerated feed contains.  The embedding
returns the ordered list of entry ids and the returned feed URL. -/
def update_rss_feed (pc : PodcastConfig) (ws : List EpisodeDir)
    (audio_path : String) (episode_metadata : Metadata) :
    List String × String :=
  let website := configWebsite pc
  let dirs := episodeDirsListing ws
  let entries := (dirs.filter (fun d => d.hasMetadata && d.hasAudio)).map
    (fun d => d.name)
  (entries, website ++ "/feed/podcast.xml")

/-- The orchestrator's `try`/`except` around one executor call: a successful
call yields `DONE` with the detail the orchestrator computes at that point
(artifact size, returned URL); an exception yields the exception's message,
`str(e)`, unchanged. -/
def execOf (r : Except String Unit) (doneDetail : String) : ExecResult :=
  match r with
  | .ok _ => .ok doneDetail
  | .error m => .err m

/-- Position of a step in the fixed pipeline enumeration. -/
def stepIndex : String → Nat
  | "audio" => 0
  | "transcript" => 1
  | "show_notes" => 2
  | "youtube" => 3
  | "rss" => 4
  | _ => 5

/-- Left-padding in the literal sense of the spec's words: spaces are
prepended until the field width is reached. -/
def padLeftTo (s : String) (w : Nat) : String :=
  String.mk (List.replicate (w - s.length) ' ') ++ s

/-- Modelled from the spec: the log-line format as the specification words
it, with the step name and outcome left-padded to their fixed widths.
Compared against `logLine` (the code's format) for claim C8. -/
def logLineSpecLeftPadded (ts : String) (e : LogEntry) : String :=
  "[" ++ ts ++ "] " ++ padLeftTo e.step 20 ++ " " ++
    padLeftTo (outcomeText e.outcome) 10 ++ " " ++ e.detail ++ "\n"

/-- Modelled from the spec: the tail of the log-reader pattern as claim C5
states it, with `SKIP` included in the outcome alternation
(`\s+(\w+)\s+(START|DONE|FAIL|SKIP)\s*(.*)`). -/
def matchTailSpec (cs : List Char) : Option (String × Outcome) :=
  match cs with
  | [] => none
  | c :: _ =>
    if !isSpaceChar c then none
    else
      let r1 := cs.dropWhile isSpaceChar
      match r1 with
      | [] => none
      | c1 :: _ =>
        if !isWordChar c1 then none
        else
          let w := r1.takeWhile isWordChar
          let r2 := r1.dropWhile isWordChar
          match r2 with
          | [] => none
          | c2 :: _ =>
            if !isSpaceChar c2 then none
            else
              let r3 := r2.dropWhile isSpaceChar
              if "START".data.isPrefixOf r3 then some (String.mk w, .START)
              else if "DONE".data.isPrefixOf r3 then some (String.mk w, .DONE)
              else if "FAIL".data.isPrefixOf r3 then some (String.mk w, .FAIL)
              else if "SKIP".data.isPrefixOf r3 then some (String.mk w, .SKIP)
              else none

/-- Modelled from the spec: bracket search for the spec-side reader. -/
def matchAfterBracketSpec : List Char → Option (String × Outcome)
  | [] => none
  | c :: rest =>
    if c == ']' then
      match matchTailSpec rest with
      | some r => some r
      | none => matchAfterBracketSpec rest
    else matchAfterBracketSpec rest

/-- Modelled from the spec: line parser recognising all four outcomes. -/
def parseLogLineSpec (line : String) : Option (String × Outcome) :=
  match line.data with
  | '[' :: rest => matchAfterBracketSpec rest
  | _ => none

/-- Modelled from the spec: the per-step status mapping claim C5 describes,
last matching entry wins, with `SKIP` among the recognised outcomes. -/
def loadEpisodeStepsSpec (lines : List String) (step : String) : Option Outcome :=
  lines.foldl
    (fun acc line =>
      match parseLogLineSpec line with
      | some (s, o) => if s == step then some o else acc
      | none => acc)
    none

/-! ### Concrete fixtures used by counterexamples and witnesses -/

/-- Executor oracles that all succeed. -/
def exAllOk : Executors :=
  ⟨.ok "12.0 MB", .ok "34 KB", .ok "5 KB",
    .ok "https://youtube.com/watch?v=abc",
    .ok "https://pod.example/feed/podcast.xml"⟩

/-- Metadata with every publish-target flag enabled. -/
def metaAllOn : Metadata := ⟨"video.mp4", true, true, true⟩

/-- Metadata with every publish-target flag disabled. -/
def metaAllOff : Metadata := ⟨"video.mp4", false, false, false⟩

/-- Episode directory holding only the video file. -/
def stVideoOnly : EpisodeFiles := ⟨true, false, false, false⟩

/-- Executor oracles where only the audio extraction fails. -/
def exAudioFails : Executors :=
  ⟨.err "boom", .ok "34 KB", .ok "5 KB", .ok "yt", .ok "feed"⟩

/-- Executor oracles where only the transcription fails. -/
def exTranscriptFails : Executors :=
  ⟨.ok "12.0 MB", .err "tboom", .ok "5 KB", .ok "yt", .ok "feed"⟩

/-- A 600-character ffmpeg stderr. -/
def longStderr : String := String.mk (List.replicate 600 'x')

/-! ### Anatomy of one run

Named pieces of `publishStepsRun` (the log slice each block appends and the
file state after each block), used to decompose proofs. -/

/-- Log entries appended by the audio block. -/
def logA (m : Metadata) (rs : List String) (st : EpisodeFiles) (ex : Executors) :
    List LogEntry :=
  if rs.contains "audio" then (audioStep m st ex.audioExec).1 else []

/-- File state after the audio block. -/
def runSt1 (m : Metadata) (rs : List String) (st : EpisodeFiles) (ex : Executors) :
    EpisodeFiles :=
  if rs.contains "audio" then (audioStep m st ex.audioExec).2.1 else st

/-- Whether the run halts at the audio block (the early `return`). -/
def runHalts (m : Metadata) (rs : List String) (st : EpisodeFiles) (ex : Executors) :
    Bool :=
  rs.contains "audio" && (audioStep m st ex.audioExec).2.2

/-- Log entries appended by the transcript block. -/
def logT (m : Metadata) (rs : List String) (st : EpisodeFiles) (ex : Executors) :
    List LogEntry :=
  if rs.contains "transcript" then
    (transcriptStep (runSt1 m rs st ex) ex.transcriptExec).1
  else []

/-- File state after the transcript block. -/
def runSt2 (m : Metadata) (rs : List String) (st : EpisodeFiles) (ex : Executors) :
    EpisodeFiles :=
  if rs.contains "transcript" then
    (transcriptStep (runSt1 m rs st ex) ex.transcriptExec).2
  else runSt1 m rs st ex

/-- Log entries appended by the show-notes block. -/
def logS (m : Metadata) (rs : List String) (st : EpisodeFiles) (ex : Executors) :
    List LogEntry :=
  if rs.contains "show_notes" then
    (showNotesStep (runSt2 m rs st ex) ex.showNotesExec).1
  else []

/-- File state after the show-notes block (also the final state of a
non-halted run: the youtube and rss blocks do not change local files). -/
def runSt3 (m : Metadata) (rs : List String) (st : EpisodeFiles) (ex : Executors) :
    EpisodeFiles :=
  if rs.contains "show_notes" then
    (showNotesStep (runSt2 m rs st ex) ex.showNotesExec).2
  else runSt2 m rs st ex

/-- Log entries appended by the youtube block. -/
def logY (m : Metadata) (rs : List String) (st : EpisodeFiles) (ex : Executors) :
    List LogEntry :=
  if rs.contains "youtube" && m.pubYoutube then
    youtubeStep (runSt3 m rs st ex) ex.youtubeExec
  else []

/-- Log entries appended by the rss block. -/
def logR (m : Metadata) (rs : List String) (st : EpisodeFiles) (ex : Executors) :
    List LogEntry :=
  if rs.contains "rss" && (m.pubSpotify || m.pubApple) then
    rssStep (runSt3 m rs st ex) ex.rssExec
  else []

theorem publishStepsRun_eq_halt (m : Metadata) (rs : List String)
    (st : EpisodeFiles) (ex : Executors) (h : runHalts m rs st ex = true) :
    publishStepsRun m rs st ex =
      ((audioStep m st ex.audioExec).1, (audioStep m st ex.audioExec).2.1) := by
  unfold runHalts at h
  by_cases hca : "audio" ∈ rs
  · simp [hca] at h
    simp [publishStepsRun, hca, h]
  · simp [hca] at h

theorem publishStepsRun_eq_nohalt (m : Metadata) (rs : List String)
    (st : EpisodeFiles) (ex : Executors) (h : runHalts m rs st ex = false) :
    publishStepsRun m rs st ex =
      (logA m rs st ex ++ logT m rs st ex ++ logS m rs st ex ++
        logY m rs st ex ++ logR m rs st ex, runSt3 m rs st ex) := by
  unfold runHalts at h
  unfold publishStepsRun logA logT logS logY logR runSt3 runSt2 runSt1
  by_cases hca : "audio" ∈ rs <;>
    by_cases hct : "transcript" ∈ rs <;>
      by_cases hcs : "show_notes" ∈ rs <;>
        simp_all

/-! ### Per-block facts -/

theorem audioStep_mem_step (m : Metadata) (st : EpisodeFiles) (ex : ExecResult) :
    ∀ e ∈ (audioStep m st ex).1, e.step = "audio" := by
  cases hv : st.hasVideo <;> cases ha : st.hasAudio <;> cases ex <;>
    simp [audioStep, hv, ha]

theorem audioStep_state (m : Metadata) (st : EpisodeFiles) (ex : ExecResult) :
    (audioStep m st ex).2.1 =
      ⟨st.hasVideo, st.hasAudio || (st.hasVideo && ex.isOk),
        st.hasTranscript, st.hasShowNotes⟩ := by
  rcases st with ⟨v, a, t, s⟩
  cases v <;> cases a <;> cases ex <;> simp [audioStep, ExecResult.isOk]

theorem audioStep_halt_iff (m : Metadata) (st : EpisodeFiles) (ex : ExecResult) :
    (audioStep m st ex).2.2 = (st.hasVideo && !st.hasAudio && !ex.isOk) := by
  cases hv : st.hasVideo <;> cases ha : st.hasAudio <;> cases ex <;>
    simp [audioStep, ExecResult.isOk, hv, ha]

theorem audioStep_ne_nil (m : Metadata) (st : EpisodeFiles) (ex : ExecResult) :
    (audioStep m st ex).1 ≠ [] := by
  cases hv : st.hasVideo <;> cases ha : st.hasAudio <;> cases ex <;>
    simp [audioStep, hv, ha]

theorem audioStep_skip_of_stable (m : Metadata) (st : EpisodeFiles)
    (ex : ExecResult) (h : st.hasVideo = true → st.hasAudio = true) :
    (∀ e ∈ (audioStep m st ex).1, e.outcome = .SKIP) ∧
      (audioStep m st ex).2.1 = st ∧ (audioStep m st ex).2.2 = false := by
  cases hv : st.hasVideo <;> cases ha : st.hasAudio <;> cases ex <;>
    simp_all [audioStep]

theorem transcriptStep_mem_step (st : EpisodeFiles) (ex : ExecResult) :
    ∀ e ∈ (transcriptStep st ex).1, e.step = "transcript" := by
  cases ht : st.hasTranscript <;> cases ha : st.hasAudio <;> cases ex <;>
    simp [transcriptStep, ht, ha]

theorem transcriptStep_state (st : EpisodeFiles) (ex : ExecResult) :
    (transcriptStep st ex).2 =
      ⟨st.hasVideo, st.hasAudio,
        st.hasTranscript || (st.hasAudio && ex.isOk), st.hasShowNotes⟩ := by
  rcases st with ⟨v, a, t, s⟩
  cases t <;> cases a <;> cases ex <;> simp [transcriptStep, ExecResult.isOk]

theorem transcriptStep_ne_nil (st : EpisodeFiles) (ex : ExecResult) :
    (transcriptStep st ex).1 ≠ [] := by
  cases ht : st.hasTranscript <;> cases ha : st.hasAudio <;> cases ex <;>
    simp [transcriptStep, ht, ha]

theorem transcriptStep_skip_of_stable (st : EpisodeFiles) (ex : ExecResult)
    (h : st.hasAudio = true → st.hasTranscript = true) :
    (∀ e ∈ (transcriptStep st ex).1, e.outcome = .SKIP) ∧
      (transcriptStep st ex).2 = st := by
  cases ht : st.hasTranscript <;> cases ha : st.hasAudio <;> cases ex <;>
    simp_all [transcriptStep]

theorem showNotesStep_mem_step (st : EpisodeFiles) (ex : ExecResult) :
    ∀ e ∈ (showNotesStep st ex).1, e.step = "show_notes" := by
  cases hs : st.hasShowNotes <;> cases ht : st.hasTranscript <;> cases ex <;>
    simp [showNotesStep, hs, ht]

theorem showNotesStep_state (st : EpisodeFiles) (ex : ExecResult) :
    (showNotesStep st ex).2 =
      ⟨st.hasVideo, st.hasAudio, st.hasTranscript,
        st.hasShowNotes || (st.hasTranscript && ex.isOk)⟩ := by
  rcases st with ⟨v, a, t, s⟩
  cases s <;> cases t <;> cases ex <;> simp [showNotesStep, ExecResult.isOk]

theorem showNotesStep_ne_nil (st : EpisodeFiles) (ex : ExecResult) :
    (showNotesStep st ex).1 ≠ [] := by
  cases hs : st.hasShowNotes <;> cases ht : st.hasTranscript <;> cases ex <;>
    simp [showNotesStep, hs, ht]

theorem showNotesStep_skip_of_stable (st : EpisodeFiles) (ex : ExecResult)
    (h : st.hasTranscript = true → st.hasShowNotes = true) :
    (∀ e ∈ (showNotesStep st ex).1, e.outcome = .SKIP) ∧
      (showNotesStep st ex).2 = st := by
  cases hs : st.hasShowNotes <;> cases ht : st.hasTranscript <;> cases ex <;>
    simp_all [showNotesStep]

theorem youtubeStep_mem_step (st : EpisodeFiles) (ex : ExecResult) :
    ∀ e ∈ youtubeStep st ex, e.step = "youtube" := by
  cases hv : st.hasVideo <;> cases ex <;> simp [youtubeStep, hv]

theorem youtubeStep_ne_nil (st : EpisodeFiles) (ex : ExecResult) :
    youtubeStep st ex ≠ [] := by
  cases hv : st.hasVideo <;> cases ex <;> simp [youtubeStep, hv]

theorem rssStep_mem_step (st : EpisodeFiles) (ex : ExecResult) :
    ∀ e ∈ rssStep st ex, e.step = "rss" := by
  cases ha : st.hasAudio <;> cases ex <;> simp [rssStep, ha]

theorem rssStep_ne_nil (st : EpisodeFiles) (ex : ExecResult) :
    rssStep st ex ≠ [] := by
  cases ha : st.hasAudio <;> cases ex <;> simp [rssStep, ha]

/-- Entries of a list all about one step survive a filter for that step
name and vanish under a filter for any other. -/
theorem filter_step_of_all {l : List LogEntry} {s s' : String}
    (h : ∀ e ∈ l, e.step = s) :
    l.filter (fun e => e.step == s') = (if s = s' then l else []) := by
  split
  · next heq =>
    refine List.filter_eq_self.mpr ?_
    intro e he
    simp [h e he, heq]
  · next hne =>
    refine List.filter_eq_nil_iff.mpr ?_
    intro e he
    simp [h e he]
    exact fun hc => hne hc

theorem logA_mem_step (m : Metadata) (rs : List String) (st : EpisodeFiles)
    (ex : Executors) : ∀ e ∈ logA m rs st ex, e.step = "audio" := by
  unfold logA
  split
  · exact audioStep_mem_step m st ex.audioExec
  · simp

theorem logT_mem_step (m : Metadata) (rs : List String) (st : EpisodeFiles)
    (ex : Executors) : ∀ e ∈ logT m rs st ex, e.step = "transcript" := by
  unfold logT
  split
  · exact transcriptStep_mem_step _ ex.transcriptExec
  · simp

theorem logS_mem_step (m : Metadata) (rs : List String) (st : EpisodeFiles)
    (ex : Executors) : ∀ e ∈ logS m rs st ex, e.step = "show_notes" := by
  unfold logS
  split
  · exact showNotesStep_mem_step _ ex.showNotesExec
  · simp

theorem logY_mem_step (m : Metadata) (rs : List String) (st : EpisodeFiles)
    (ex : Executors) : ∀ e ∈ logY m rs st ex, e.step = "youtube" := by
  unfold logY
  split
  · exact youtubeStep_mem_step _ ex.youtubeExec
  · simp

theorem logR_mem_step (m : Metadata) (rs : List String) (st : EpisodeFiles)
    (ex : Executors) : ∀ e ∈ logR m rs st ex, e.step = "rss" := by
  unfold logR
  split
  · exact rssStep_mem_step _ ex.rssExec
  · simp

/-- Every entry a run appends is about one of the five pipeline steps. -/
theorem run_mem_step (m : Metadata) (rs : List String) (st : EpisodeFiles)
    (ex : Executors) :
    ∀ e ∈ (publishStepsRun m rs st ex).1,
      e.step = "audio" ∨ e.step = "transcript" ∨ e.step = "show_notes" ∨
        e.step = "youtube" ∨ e.step = "rss" := by
  intro e he
  cases hh : runHalts m rs st ex with
  | true =>
    rw [publishStepsRun_eq_halt m rs st ex hh] at he
    exact Or.inl (audioStep_mem_step m st ex.audioExec e he)
  | false =>
    rw [publishStepsRun_eq_nohalt m rs st ex hh] at he
    rcases List.mem_append.mp he with h1 | hR
    · rcases List.mem_append.mp h1 with h2 | hY
      · rcases List.mem_append.mp h2 with h3 | hS
        · rcases List.mem_append.mp h3 with hA | hT
          · exact Or.inl (logA_mem_step m rs st ex e hA)
          · exact Or.inr (Or.inl (logT_mem_step m rs st ex e hT))
        · exact Or.inr (Or.inr (Or.inl (logS_mem_step m rs st ex e hS)))
      · exact Or.inr (Or.inr (Or.inr (Or.inl (logY_mem_step m rs st ex e hY))))
    · exact Or.inr (Or.inr (Or.inr (Or.inr (logR_mem_step m rs st ex e hR))))

theorem run_filter_audio (m : Metadata) (rs : List String) (st : EpisodeFiles)
    (ex : Executors) (h : runHalts m rs st ex = false) :
    (publishStepsRun m rs st ex).1.filter (fun e => e.step == "audio") =
      logA m rs st ex := by
  rw [publishStepsRun_eq_nohalt m rs st ex h]
  simp only [List.filter_append]
  rw [filter_step_of_all (logA_mem_step m rs st ex),
    filter_step_of_all (logT_mem_step m rs st ex),
    filter_step_of_all (logS_mem_step m rs st ex),
    filter_step_of_all (logY_mem_step m rs st ex),
    filter_step_of_all (logR_mem_step m rs st ex)]
  simp

theorem run_filter_transcript (m : Metadata) (rs : List String)
    (st : EpisodeFiles) (ex : Executors) (h : runHalts m rs st ex = false) :
    (publishStepsRun m rs st ex).1.filter (fun e => e.step == "transcript") =
      logT m rs st ex := by
  rw [publishStepsRun_eq_nohalt m rs st ex h]
  simp only [List.filter_append]
  rw [filter_step_of_all (logA_mem_step m rs st ex),
    filter_step_of_all (logT_mem_step m rs st ex),
    filter_step_of_all (logS_mem_step m rs st ex),
    filter_step_of_all (logY_mem_step m rs st ex),
    filter_step_of_all (logR_mem_step m rs st ex)]
  simp

theorem run_filter_show_notes (m : Metadata) (rs : List String)
    (st : EpisodeFiles) (ex : Executors) (h : runHalts m rs st ex = false) :
    (publishStepsRun m rs st ex).1.filter (fun e => e.step == "show_notes") =
      logS m rs st ex := by
  rw [publishStepsRun_eq_nohalt m rs st ex h]
  simp only [List.filter_append]
  rw [filter_step_of_all (logA_mem_step m rs st ex),
    filter_step_of_all (logT_mem_step m rs st ex),
    filter_step_of_all (logS_mem_step m rs st ex),
    filter_step_of_all (logY_mem_step m rs st ex),
    filter_step_of_all (logR_mem_step m rs st ex)]
  simp

theorem run_filter_youtube (m : Metadata) (rs : List String)
    (st : EpisodeFiles) (ex : Executors) (h : runHalts m rs st ex = false) :
    (publishStepsRun m rs st ex).1.filter (fun e => e.step == "youtube") =
      logY m rs st ex := by
  rw [publishStepsRun_eq_nohalt m rs st ex h]
  simp only [List.filter_append]
  rw [filter_step_of_all (logA_mem_step m rs st ex),
    filter_step_of_all (logT_mem_step m rs st ex),
    filter_step_of_all (logS_mem_step m rs st ex),
    filter_step_of_all (logY_mem_step m rs st ex),
    filter_step_of_all (logR_mem_step m rs st ex)]
  simp

theorem run_filter_rss (m : Metadata) (rs : List String) (st : EpisodeFiles)
    (ex : Executors) (h : runHalts m rs st ex = false) :
    (publishStepsRun m rs st ex).1.filter (fun e => e.step == "rss") =
      logR m rs st ex := by
  rw [publishStepsRun_eq_nohalt m rs st ex h]
  simp only [List.filter_append]
  rw [filter_step_of_all (logA_mem_step m rs st ex),
    filter_step_of_all (logT_mem_step m rs st ex),
    filter_step_of_all (logS_mem_step m rs st ex),
    filter_step_of_all (logY_mem_step m rs st ex),
    filter_step_of_all (logR_mem_step m rs st ex)]
  simp

/-! ### Claim theorems -/

/-- Claim C6: a run on an episode directory with no metadata document fails
directly to the caller before any step is evaluated and appends no log
entry (the error result carries an empty log); and a request containing a
step name outside the fixed enumeration is rejected by `main`'s argument
validation before any step executes. -/
theorem C6_structural_failure (steps : Option (List String))
    (st : EpisodeFiles) (ex : Executors) (metaOpt : Option Metadata)
    (bad : List String) (s : String) (hs : s ∈ bad) (hbad : s ∉ all_steps) :
    publish_episode none steps st ex = .error "No metadata.toml in episode_dir" ∧
    main metaOpt (some bad) st ex = .error "argument --steps: invalid choice" := by
  constructor
  · rfl
  · have hv : validSteps (some bad) = false := by
      unfold validSteps
      rw [List.all_eq_false]
      exact ⟨s, hs, by simpa using hbad⟩
    simp [main, hv]

/-- Witness for C6 at a concrete input: the spec-level name `feed_update`
is not a valid CLI step name. -/
theorem C6_structural_failure_witness :
    "feed_update" ∈ ["feed_update"] ∧ "feed_update" ∉ all_steps ∧
    (publish_episode none none stVideoOnly exAllOk =
      .error "No metadata.toml in episode_dir" ∧
     main (some metaAllOn) (some ["feed_update"]) stVideoOnly exAllOk =
      .error "argument --steps: invalid choice") :=
  ⟨by decide, by decide,
    C6_structural_failure none stVideoOnly exAllOk (some metaAllOn)
      ["feed_update"] "feed_update" (by decide) (by decide)⟩

/-- Claim C10 (implicit): the rss step is gated by the disjunction of the
two audio publish-target flags — in a run not halted by an audio failure,
the log has rss entries iff rss was requested and `spotify ∨ apple` holds;
and no log entry ever carries `spotify` or `apple` as a step name: the one
rss step serves both audio platforms. -/
theorem C10_rss_gate (m : Metadata) (rs : List String) (st : EpisodeFiles)
    (ex : Executors) (h : runHalts m rs st ex = false) :
    ((publishStepsRun m rs st ex).1.filter (fun e => e.step == "rss") ≠ [] ↔
      (rs.contains "rss" && (m.pubSpotify || m.pubApple)) = true) ∧
    (publishStepsRun m rs st ex).1.filter
      (fun e => e.step == "spotify" || e.step == "apple") = [] := by
  constructor
  · rw [run_filter_rss m rs st ex h]
    unfold logR
    split
    · next hc =>
      simp only [hc]
      simpa using rssStep_ne_nil (runSt3 m rs st ex) ex.rssExec
    · next hc =>
      exact iff_of_false (by simp) hc
  · refine List.filter_eq_nil_iff.mpr (fun e he => ?_)
    rcases run_mem_step m rs st ex e he with h1 | h1 | h1 | h1 | h1 <;> simp [h1]

/-- Witness for C10: request `rss` with only the apple flag set on an
episode that has audio. -/
theorem C10_rss_gate_witness :
    runHalts ⟨"video.mp4", false, false, true⟩ ["rss"] ⟨true, true, false, false⟩ exAllOk = false ∧
    (((publishStepsRun ⟨"video.mp4", false, false, true⟩ ["rss"] ⟨true, true, false, false⟩ exAllOk).1.filter
        (fun e => e.step == "rss") ≠ [] ↔
      ((["rss"].contains "rss") && (Metadata.pubSpotify ⟨"video.mp4", false, false, true⟩ ||
        Metadata.pubApple ⟨"video.mp4", false, false, true⟩)) = true) ∧
     (publishStepsRun ⟨"video.mp4", false, false, true⟩ ["rss"] ⟨true, true, false, false⟩ exAllOk).1.filter
        (fun e => e.step == "spotify" || e.step == "apple") = []) :=
  ⟨by decide,
    C10_rss_gate ⟨"video.mp4", false, false, true⟩ ["rss"] ⟨true, true, false, false⟩ exAllOk (by decide)⟩

/-- Counterexample to claim C3: an episode whose youtube flag is false, a
present video file, and a request for the youtube step.  The claim demands
a SKIP entry with reason "target disabled"; the code emits no log line at
all for the step (the run's log is empty). -/
theorem C3_counterexample :
    (publishStepsRun metaAllOff ["youtube"] stVideoOnly exAllOk).1 = [] := by
  decide

/-- Claim C3 as amended: when the publish-target flag gating a step is
false, the step's whole block is skipped silently — the run appends no log
entry for that step (no SKIP line, no "target disabled" reason) and does
not invoke the executor.  This holds whether or not the run halts early. -/
theorem C3_gating_silent (m : Metadata) (rs : List String) (st : EpisodeFiles)
    (ex : Executors) :
    (m.pubYoutube = false →
      (publishStepsRun m rs st ex).1.filter (fun e => e.step == "youtube") = []) ∧
    (m.pubSpotify = false → m.pubApple = false →
      (publishStepsRun m rs st ex).1.filter (fun e => e.step == "rss") = []) := by
  cases hh : runHalts m rs st ex with
  | true =>
    rw [publishStepsRun_eq_halt m rs st ex hh]
    constructor
    · intro _
      refine List.filter_eq_nil_iff.mpr (fun e he => ?_)
      simp [audioStep_mem_step m st ex.audioExec e he]
    · intro _ _
      refine List.filter_eq_nil_iff.mpr (fun e he => ?_)
      simp [audioStep_mem_step m st ex.audioExec e he]
  | false =>
    constructor
    · intro hy
      rw [run_filter_youtube m rs st ex hh]
      unfold logY
      simp [hy]
    · intro hsp hap
      rw [run_filter_rss m rs st ex hh]
      unfold logR
      simp [hsp, hap]

/-- Witness for C3's amended theorem: all flags off, youtube and rss
requested, assets present. -/
theorem C3_gating_silent_witness :
    metaAllOff.pubYoutube = false ∧ metaAllOff.pubSpotify = false ∧
    metaAllOff.pubApple = false ∧
    ((publishStepsRun metaAllOff ["youtube", "rss"] ⟨true, true, false, false⟩ exAllOk).1.filter
        (fun e => e.step == "youtube") = [] ∧
     (publishStepsRun metaAllOff ["youtube", "rss"] ⟨true, true, false, false⟩ exAllOk).1.filter
        (fun e => e.step == "rss") = []) :=
  ⟨rfl, rfl, rfl,
    (C3_gating_silent metaAllOff ["youtube", "rss"] ⟨true, true, false, false⟩ exAllOk).1 rfl,
    (C3_gating_silent metaAllOff ["youtube", "rss"] ⟨true, true, false, false⟩ exAllOk).2 rfl rfl⟩

/-- An audio executor failure on an otherwise-runnable audio step makes the
whole run's log exactly the audio START and FAIL entries. -/
theorem audioFail_run_log (m : Metadata) (rs : List String)
    (st : EpisodeFiles) (ex : Executors) (msg : String)
    (hca : rs.contains "audio" = true) (hv : st.hasVideo = true)
    (ha : st.hasAudio = false) (he : ex.audioExec = .err msg) :
    (publishStepsRun m rs st ex).1 =
      [⟨"audio", .START, "Extracting from " ++ m.videoName⟩,
       ⟨"audio", .FAIL, msg⟩] := by
  have hblock : audioStep m st ex.audioExec =
      ([⟨"audio", .START, "Extracting from " ++ m.videoName⟩,
        ⟨"audio", .FAIL, msg⟩], st, true) := by
    rw [he]; simp [audioStep, hv, ha]
  have hh : runHalts m rs st ex = true := by
    unfold runHalts; rw [hca, hblock]; rfl
  rw [publishStepsRun_eq_halt m rs st ex hh, hblock]

/-- A transcript executor failure, when the block runs, leaves a FAIL entry
with the message verbatim in the run's log. -/
theorem transcriptFail_mem (m : Metadata) (rs : List String)
    (st : EpisodeFiles) (ex : Executors) (msg : String)
    (hnh : runHalts m rs st ex = false) (hct : rs.contains "transcript" = true)
    (h1 : (runSt1 m rs st ex).hasTranscript = false)
    (h2 : (runSt1 m rs st ex).hasAudio = true)
    (he : ex.transcriptExec = .err msg) :
    (⟨"transcript", .FAIL, msg⟩ : LogEntry) ∈ (publishStepsRun m rs st ex).1 := by
  have hb : logT m rs st ex =
      [⟨"transcript", .START, "Transcribing with Whisper"⟩,
       ⟨"transcript", .FAIL, msg⟩] := by
    unfold logT; rw [if_pos hct, he]
    simp [transcriptStep, h1, h2]
  rw [publishStepsRun_eq_nohalt m rs st ex hnh]
  simp [List.mem_append, hb]

/-- Claim C2: failure isolation.  If the audio step executes and its
executor fails, the run halts: the log is exactly the audio START and FAIL
entries, so transcript/show_notes/youtube/rss are unattempted (no entry,
in particular never FAIL).  If the run is not halted at audio, it proceeds
to evaluate every later requested (and gated) step — each contributes at
least one log entry — and any such step whose executor is invoked and
fails gets a FAIL entry with the failure's message while the run still
continues. -/
theorem C2_failure_isolation (m : Metadata) (rs : List String)
    (st : EpisodeFiles) (ex : Executors) :
    (∀ msg, rs.contains "audio" = true → st.hasVideo = true →
      st.hasAudio = false → ex.audioExec = .err msg →
      (publishStepsRun m rs st ex).1 =
        [⟨"audio", .START, "Extracting from " ++ m.videoName⟩,
         ⟨"audio", .FAIL, msg⟩]) ∧
    (runHalts m rs st ex = false →
      (rs.contains "transcript" = true → logT m rs st ex ≠ []) ∧
      (rs.contains "show_notes" = true → logS m rs st ex ≠ []) ∧
      ((rs.contains "youtube" && m.pubYoutube) = true → logY m rs st ex ≠ []) ∧
      ((rs.contains "rss" && (m.pubSpotify || m.pubApple)) = true →
        logR m rs st ex ≠ []) ∧
      (∀ msg, rs.contains "transcript" = true →
        (runSt1 m rs st ex).hasTranscript = false →
        (runSt1 m rs st ex).hasAudio = true → ex.transcriptExec = .err msg →
        (⟨"transcript", .FAIL, msg⟩ : LogEntry) ∈ (publishStepsRun m rs st ex).1) ∧
      (∀ msg, rs.contains "show_notes" = true →
        (runSt2 m rs st ex).hasShowNotes = false →
        (runSt2 m rs st ex).hasTranscript = true → ex.showNotesExec = .err msg →
        (⟨"show_notes", .FAIL, msg⟩ : LogEntry) ∈ (publishStepsRun m rs st ex).1) ∧
      (∀ msg, (rs.contains "youtube" && m.pubYoutube) = true →
        (runSt3 m rs st ex).hasVideo = true → ex.youtubeExec = .err msg →
        (⟨"youtube", .FAIL, msg⟩ : LogEntry) ∈ (publishStepsRun m rs st ex).1) ∧
      (∀ msg, (rs.contains "rss" && (m.pubSpotify || m.pubApple)) = true →
        (runSt3 m rs st ex).hasAudio = true → ex.rssExec = .err msg →
        (⟨"rss", .FAIL, msg⟩ : LogEntry) ∈ (publishStepsRun m rs st ex).1)) := by
  constructor
  · intro msg hca hv ha he
    exact audioFail_run_log m rs st ex msg hca hv ha he
  · intro hnh
    refine ⟨?_, ?_, ?_, ?_, ?_, ?_, ?_, ?_⟩
    · intro hct
      unfold logT; rw [if_pos hct]
      exact transcriptStep_ne_nil _ _
    · intro hcs
      unfold logS; rw [if_pos hcs]
      exact showNotesStep_ne_nil _ _
    · intro hcy
      unfold logY; rw [if_pos hcy]
      exact youtubeStep_ne_nil _ _
    · intro hcr
      unfold logR; rw [if_pos hcr]
      exact rssStep_ne_nil _ _
    · intro msg hct h1 h2 he
      exact transcriptFail_mem m rs st ex msg hnh hct h1 h2 he
    · intro msg hcs h1 h2 he
      have hb : logS m rs st ex =
          [⟨"show_notes", .START, "Generating with Claude"⟩,
           ⟨"show_notes", .FAIL, msg⟩] := by
        unfold logS; rw [if_pos hcs, he]
        simp [showNotesStep, h1, h2]
      rw [publishStepsRun_eq_nohalt m rs st ex hnh]
      simp [List.mem_append, hb]
    · intro msg hcy h1 he
      have hb : logY m rs st ex =
          [⟨"youtube", .START, "Uploading to YouTube"⟩,
           ⟨"youtube", .FAIL, msg⟩] := by
        unfold logY; rw [if_pos hcy, he]
        simp [youtubeStep, h1]
      rw [publishStepsRun_eq_nohalt m rs st ex hnh]
      simp [List.mem_append, hb]
    · intro msg hcr h1 he
      have hb : logR m rs st ex =
          [⟨"rss", .START, "Updating RSS feed"⟩,
           ⟨"rss", .FAIL, msg⟩] := by
        unfold logR; rw [if_pos hcr, he]
        simp [rssStep, h1]
      rw [publishStepsRun_eq_nohalt m rs st ex hnh]
      simp [List.mem_append, hb]

/-- Witness for C2: an audio failure on a present video halts the run with
exactly two audio entries; a transcript failure on a later run leaves a
transcript FAIL entry while the run continues. -/
theorem C2_failure_isolation_witness :
    ((all_steps.contains "audio" = true ∧ stVideoOnly.hasVideo = true ∧
      stVideoOnly.hasAudio = false ∧ exAudioFails.audioExec = .err "boom") ∧
     (publishStepsRun metaAllOn all_steps stVideoOnly exAudioFails).1 =
       [⟨"audio", .START, "Extracting from video.mp4"⟩,
        ⟨"audio", .FAIL, "boom"⟩]) ∧
    (runHalts metaAllOn all_steps ⟨true, true, false, false⟩ exTranscriptFails = false ∧
     (⟨"transcript", .FAIL, "tboom"⟩ : LogEntry) ∈
       (publishStepsRun metaAllOn all_steps ⟨true, true, false, false⟩ exTranscriptFails).1) :=
  ⟨⟨⟨rfl, rfl, rfl, rfl⟩,
    (C2_failure_isolation metaAllOn all_steps stVideoOnly exAudioFails).1
      "boom" rfl rfl rfl rfl⟩,
   ⟨by decide,
    ((C2_failure_isolation metaAllOn all_steps ⟨true, true, false, false⟩
        exTranscriptFails).2 (by decide)).2.2.2.2.1 "tboom" rfl (by decide)
      (by decide) rfl⟩⟩

/-- Counterexample to claim C7: ffmpeg fails with a 600-character stderr on
a present video.  The audio executor's message is "ffmpeg failed: " plus
the first 500 stderr characters — 515 characters — and the orchestrator
logs all 515 of them in the FAIL entry, exceeding the claimed 500-character
bound. -/
theorem C7_counterexample :
    ((publishStepsRun metaAllOn ["audio"] stVideoOnly
        ⟨execOf (extract_audio true "video.mp4" ⟨1, longStderr⟩) "",
          .ok "", .ok "", .ok "", .ok ""⟩).1.map
        (fun e => (e.outcome, e.detail.length))) =
      [(.START, 25), (.FAIL, 515)] ∧ 500 < 515 := by
  have hex : execOf (extract_audio true "video.mp4" ⟨1, longStderr⟩) "" =
      .err ("ffmpeg failed: " ++ longStderr.take 500) := rfl
  have hrun := audioFail_run_log metaAllOn ["audio"] stVideoOnly
    ⟨execOf (extract_audio true "video.mp4" ⟨1, longStderr⟩) "",
      .ok "", .ok "", .ok "", .ok ""⟩
    ("ffmpeg failed: " ++ longStderr.take 500) rfl rfl rfl hex
  have htake : (longStderr.take 500).length = 500 := by
    rw [String.take_eq]
    show (List.take 500 longStderr.data).length = 500
    have hd : longStderr.data = List.replicate 600 'x' := rfl
    rw [hd, List.take_replicate, List.length_replicate]
    norm_num
  have hlen : ("ffmpeg failed: " ++ longStderr.take 500).length = 515 := by
    rw [String.length_append, htake]
    decide
  constructor
  · rw [hrun]
    simp only [List.map_cons, List.map_nil]
    rw [hlen]
    decide
  · decide

/-- Claim C7 as amended: the orchestrator performs no truncation — the FAIL
entry carries the executor's message verbatim (shown for the audio and
transcript steps); the only bounding in the code is inside the audio
executor itself, whose ffmpeg failure message embeds just the first 500
characters of the captured stderr. -/
theorem C7_fail_detail (m : Metadata) (rs : List String) (st : EpisodeFiles)
    (ex : Executors) :
    (∀ msg, rs.contains "audio" = true → st.hasVideo = true →
      st.hasAudio = false → ex.audioExec = .err msg →
      (⟨"audio", .FAIL, msg⟩ : LogEntry) ∈ (publishStepsRun m rs st ex).1) ∧
    (∀ msg, runHalts m rs st ex = false → rs.contains "transcript" = true →
      (runSt1 m rs st ex).hasTranscript = false →
      (runSt1 m rs st ex).hasAudio = true → ex.transcriptExec = .err msg →
      (⟨"transcript", .FAIL, msg⟩ : LogEntry) ∈ (publishStepsRun m rs st ex).1) ∧
    (∀ (vp : String) (r : ProcResult), r.returncode ≠ 0 →
      extract_audio true vp r = .error ("ffmpeg failed: " ++ r.stderr.take 500)) := by
  refine ⟨?_, ?_, ?_⟩
  · intro msg hca hv ha he
    rw [audioFail_run_log m rs st ex msg hca hv ha he]
    simp
  · intro msg hnh hct h1 h2 he
    exact transcriptFail_mem m rs st ex msg hnh hct h1 h2 he
  · intro vp r hr
    have : (r.returncode != 0) = true := by simpa using hr
    simp [extract_audio, this]

/-- Witness for C7: the concrete 600-character-stderr failure. -/
theorem C7_fail_detail_witness :
    ((1 : Int) ≠ 0 ∧
      extract_audio true "video.mp4" ⟨1, longStderr⟩ =
        .error ("ffmpeg failed: " ++ longStderr.take 500)) ∧
    (exAudioFails.audioExec = .err "boom" ∧
      (⟨"audio", .FAIL, "boom"⟩ : LogEntry) ∈
        (publishStepsRun metaAllOn ["audio"] stVideoOnly exAudioFails).1) :=
  ⟨⟨by decide,
    (C7_fail_detail metaAllOn ["audio"] stVideoOnly exAudioFails).2.2
      "video.mp4" ⟨1, longStderr⟩ (by decide)⟩,
   ⟨rfl,
    (C7_fail_detail metaAllOn ["audio"] stVideoOnly exAudioFails).1
      "boom" rfl rfl rfl rfl⟩⟩

/-- `String` append acts as list append on the underlying character data. -/
theorem data_append (a b : String) : (a ++ b).data = a.data ++ b.data := by
  cases a; cases b; rfl

/-- The character data of a padded field: the text followed by the padding
spaces. -/
theorem padRightTo_data (s : String) (w : Nat) :
    (padRightTo s w).data = s.data ++ List.replicate (w - s.length) ' ' := by
  rw [padRightTo, data_append]

/-- Length of a right-padded field. -/
theorem padRightTo_length (s : String) (w : Nat) :
    (padRightTo s w).length = max w s.length := by
  have h : (padRightTo s w).length = (padRightTo s w).data.length := rfl
  rw [h, padRightTo_data, List.length_append, List.length_replicate]
  have h2 : s.data.length = s.length := rfl
  rw [h2]
  omega

/-- Newlines in a log-line body come only from the free-text detail: the
timestamps and step names the orchestrator writes are newline-free, so a
body holds exactly the detail's newlines. -/
theorem logLineBody_count_newline (ts : String) (e : LogEntry)
    (hts : '\n' ∉ ts.data) (hstep : '\n' ∉ e.step.data) :
    (logLineBody ts e).data.count '\n' = e.detail.data.count '\n' := by
  have hd : (logLineBody ts e).data =
      ("[" : String).data ++ ts.data ++ ("] " : String).data ++
        (e.step.data ++ List.replicate (20 - e.step.length) ' ') ++
        (" " : String).data ++
        ((outcomeText e.outcome).data ++
          List.replicate (10 - (outcomeText e.outcome).length) ' ') ++
        (" " : String).data ++ e.detail.data := by
    simp only [logLineBody, data_append, padRightTo_data]
  rw [hd]
  simp only [List.count_append]
  have c1 : (("[" : String).data).count '\n' = 0 := rfl
  have c2 : ts.data.count '\n' = 0 := List.count_eq_zero.mpr hts
  have c3 : (("] " : String).data).count '\n' = 0 := rfl
  have c4 : e.step.data.count '\n' = 0 := List.count_eq_zero.mpr hstep
  have c5 : (List.replicate (20 - e.step.length) ' ').count '\n' = 0 := by
    simp [List.count_replicate]
  have c6 : ((" " : String).data).count '\n' = 0 := rfl
  have c7 : (outcomeText e.outcome).data.count '\n' = 0 := by
    cases e.outcome <;> rfl
  have c8 : (List.replicate (10 - (outcomeText e.outcome).length) ' ').count '\n' = 0 := by
    simp [List.count_replicate]
  rw [c1, c2, c3, c4, c5, c6, c7, c8]
  omega

/-- Counterexample to claim C8, in both respects the code refutes it: the
code left-justifies (right-pads) the step and outcome fields where the
claim says left-padded, and a FAIL detail carrying an embedded newline
(`str(e)` of an ffmpeg failure embeds raw multi-line stderr) makes the
appended record span two lines, not exactly one. -/
theorem C8_counterexample :
    logLine "2024-01-01 00:00:00 UTC"
        ⟨"audio", .SKIP, "No video file: video.mp4"⟩ ≠
      logLineSpecLeftPadded "2024-01-01 00:00:00 UTC"
        ⟨"audio", .SKIP, "No video file: video.mp4"⟩ ∧
    (logLine "2024-01-01 00:00:00 UTC"
        ⟨"audio", .FAIL, "ffmpeg failed: error one\nerror two"⟩).data.count '\n' = 2 := by
  constructor
  · decide
  · decide

/-- Claim C8 as amended: `log_progress` appends (never rewrites) one
newline-terminated record of the form `[<ts>]` followed by the step name
and the outcome each left-justified (padded on the RIGHT with spaces) to
fixed widths 20 and 10, then the free-text detail.  The padded fields have
length `max width text-length`.  The appended record carries exactly one
newline beyond those embedded in the detail — so it is a single line
precisely when the detail is newline-free, while a detail with embedded
newlines (such as a raw ffmpeg stderr inside `str(e)`) yields a multi-line
record. -/
theorem C8_log_line_format (content ts : String) (e : LogEntry)
    (hts : '\n' ∉ ts.data) (hstep : '\n' ∉ e.step.data) :
    log_progress content ts e = content ++ logLine ts e ∧
    logLine ts e =
      ("[" ++ ts ++ "] " ++ padRightTo e.step 20 ++ " " ++
        padRightTo (outcomeText e.outcome) 10 ++ " " ++ e.detail) ++ "\n" ∧
    (padRightTo e.step 20).length = max 20 e.step.length ∧
    (padRightTo (outcomeText e.outcome) 10).length =
      max 10 (outcomeText e.outcome).length ∧
    (logLine ts e).data.count '\n' = 1 + e.detail.data.count '\n' := by
  refine ⟨rfl, rfl, padRightTo_length _ _, padRightTo_length _ _, ?_⟩
  have hd : (logLine ts e).data = (logLineBody ts e).data ++ ['\n'] := by
    rw [logLine, data_append]
  rw [hd, List.count_append, logLineBody_count_newline ts e hts hstep]
  have h1 : List.count '\n' ['\n'] = 1 := rfl
  rw [h1]
  omega

/-- Witness for C8's amended theorem at a concrete entry. -/
theorem C8_log_line_format_witness :
    ('\n' ∉ ("2024-01-01 00:00:00 UTC" : String).data ∧
     '\n' ∉ ("audio" : String).data) ∧
    (log_progress "" "2024-01-01 00:00:00 UTC" ⟨"audio", .DONE, "12.0 MB"⟩ =
      "" ++ logLine "2024-01-01 00:00:00 UTC" ⟨"audio", .DONE, "12.0 MB"⟩ ∧
     logLine "2024-01-01 00:00:00 UTC" ⟨"audio", .DONE, "12.0 MB"⟩ =
      ("[" ++ "2024-01-01 00:00:00 UTC" ++ "] " ++ padRightTo "audio" 20 ++ " " ++
        padRightTo (outcomeText .DONE) 10 ++ " " ++ "12.0 MB") ++ "\n" ∧
     (padRightTo "audio" 20).length = max 20 ("audio" : String).length ∧
     (padRightTo (outcomeText .DONE) 10).length =
       max 10 (outcomeText .DONE).length ∧
     (logLine "2024-01-01 00:00:00 UTC" ⟨"audio", .DONE, "12.0 MB"⟩).data.count '\n' =
       1 + ("12.0 MB" : String).data.count '\n') :=
  ⟨⟨by decide, by decide⟩,
   C8_log_line_format "" "2024-01-01 00:00:00 UTC" ⟨"audio", .DONE, "12.0 MB"⟩
     (by decide) (by decide)⟩

/-! ### Log reader facts -/

theorem wordChar_not_space (c : Char) (h : isWordChar c = true) :
    isSpaceChar c = false := by
  by_contra hcon
  rw [Bool.not_eq_false] at hcon
  have hc : c = ' ' ∨ c = '\t' ∨ c = '\n' ∨ c = '\r' ∨ c = '\x0b' ∨ c = '\x0c' := by
    simpa [isSpaceChar, or_assoc] using hcon
  rcases hc with rfl | rfl | rfl | rfl | rfl | rfl <;> exact absurd h (by decide)

theorem wordChar_ne_rbracket (c : Char) (h : isWordChar c = true) : c ≠ ']' := by
  intro hc
  rw [hc] at h
  exact absurd h (by decide)

theorem matchAfterBracket_append (l r : List Char) (hl : ']' ∉ l) :
    matchAfterBracket (l ++ ']' :: r) =
      match matchTail r with
      | some v => some v
      | none => matchAfterBracket r := by
  induction l with
  | nil => simp [matchAfterBracket]
  | cons c cs ih =>
    have hc : (c == ']') = false := by
      refine beq_eq_false_iff_ne.mpr (fun hcc => hl ?_)
      rw [hcc]; exact List.mem_cons_self _ _
    have hcs : ']' ∉ cs := fun h => hl (List.mem_cons_of_mem c h)
    rw [List.cons_append]
    simp only [matchAfterBracket, hc]
    exact ih hcs

theorem matchAfterBracket_none (l : List Char) (hl : ']' ∉ l) :
    matchAfterBracket l = none := by
  induction l with
  | nil => rfl
  | cons c cs ih =>
    have hc : (c == ']') = false := by
      refine beq_eq_false_iff_ne.mpr (fun hcc => hl ?_)
      rw [hcc]; exact List.mem_cons_self _ _
    have hcs : ']' ∉ cs := fun h => hl (List.mem_cons_of_mem c h)
    simp only [matchAfterBracket, hc]
    exact ih hcs

/-- A run of copies of a character commutes across a following copy of the
same character. -/
theorem replicate_append_cons (k : Nat) (a : Char) (t : List Char) :
    List.replicate k a ++ (a :: t) = a :: (List.replicate k a ++ t) := by
  induction k with
  | zero => rfl
  | succ n ih => simp only [List.replicate_succ, List.cons_append, ih]

/-- Evaluation of the tail pattern `\s+(\w+)\s+(START|DONE|FAIL)\s*(.*)` on
a list shaped like the writer's output: one space, a non-empty word
`c0 :: sd0`, a space, more padding spaces, then a remainder `q` that does
not begin with a space. -/
theorem matchTail_eval (c0 : Char) (sd0 pad q : List Char)
    (hw : ∀ c ∈ c0 :: sd0, isWordChar c = true)
    (hpad : ∀ c ∈ pad, isSpaceChar c = true)
    (hq : ∀ c, q.head? = some c → isSpaceChar c = false) :
    matchTail (' ' :: (c0 :: (sd0 ++ (' ' :: (pad ++ q))))) =
      (if "START".data.isPrefixOf q then some (String.mk (c0 :: sd0), Outcome.START)
       else if "DONE".data.isPrefixOf q then some (String.mk (c0 :: sd0), Outcome.DONE)
       else if "FAIL".data.isPrefixOf q then some (String.mk (c0 :: sd0), Outcome.FAIL)
       else none) := by
  have hc0 : isWordChar c0 = true := hw c0 (List.mem_cons_self _ _)
  have hc0s : isSpaceChar c0 = false := wordChar_not_space c0 hc0
  have e1 : List.dropWhile isSpaceChar (' ' :: (c0 :: (sd0 ++ (' ' :: (pad ++ q))))) =
      c0 :: (sd0 ++ (' ' :: (pad ++ q))) := by
    rw [List.dropWhile_cons_of_pos rfl, List.dropWhile_cons_of_neg (by simp [hc0s])]
  have e2 : List.takeWhile isWordChar (c0 :: (sd0 ++ (' ' :: (pad ++ q)))) =
      c0 :: sd0 := by
    rw [← List.cons_append, List.takeWhile_append_of_pos hw,
      List.takeWhile_cons_of_neg (by decide), List.append_nil]
  have e3 : List.dropWhile isWordChar (c0 :: (sd0 ++ (' ' :: (pad ++ q)))) =
      ' ' :: (pad ++ q) := by
    rw [← List.cons_append, List.dropWhile_append_of_pos hw,
      List.dropWhile_cons_of_neg (by decide)]
  have e4 : List.dropWhile isSpaceChar (' ' :: (pad ++ q)) = q := by
    rw [List.dropWhile_cons_of_pos rfl, List.dropWhile_append_of_pos hpad]
    cases hq2 : q with
    | nil => rfl
    | cons a b =>
      have ha := hq a (by rw [hq2]; rfl)
      rw [List.dropWhile_cons_of_neg (by simp [ha])]
  have hsp : (!isSpaceChar ' ') = false := rfl
  have hwd : (!isWordChar c0) = false := by rw [hc0]; rfl
  simp only [matchTail, e1, e2, e3, e4, hsp, hwd, Bool.false_eq_true, if_false]

/-- The character data of a log-line body, with every run of spaces pulled
into leading-space form. -/
theorem logLineBody_data (ts : String) (e : LogEntry) :
    (logLineBody ts e).data =
      '[' :: (ts.data ++ (']' :: (' ' :: (e.step.data ++
        (' ' :: (List.replicate (20 - e.step.length) ' ' ++
          ((outcomeText e.outcome).data ++
            (' ' :: (List.replicate (10 - (outcomeText e.outcome).length) ' ' ++
              e.detail.data))))))))) := by
  have l1 : ("[" : String).data = ['['] := rfl
  have l2 : ("] " : String).data = [']', ' '] := rfl
  have l3 : (" " : String).data = [' '] := rfl
  simp only [logLineBody, data_append, padRightTo_data, l1, l2, l3]
  simp [List.append_assoc, replicate_append_cons]

/-- Head of the remainder after the step field is the first letter of the
outcome text, never a space. -/
theorem outcome_remainder_head (e : LogEntry) :
    ∀ c, (((outcomeText e.outcome).data ++
        (' ' :: (List.replicate (10 - (outcomeText e.outcome).length) ' ' ++
          e.detail.data))).head? = some c) → isSpaceChar c = false := by
  cases e.outcome with
  | START =>
    exact fun c hc => by
      injection (show (some 'S' : Option Char) = some c from hc) with h
      rw [← h]; rfl
  | DONE =>
    exact fun c hc => by
      injection (show (some 'D' : Option Char) = some c from hc) with h
      rw [← h]; rfl
  | FAIL =>
    exact fun c hc => by
      injection (show (some 'F' : Option Char) = some c from hc) with h
      rw [← h]; rfl
  | SKIP =>
    exact fun c hc => by
      injection (show (some 'S' : Option Char) = some c from hc) with h
      rw [← h]; rfl

/-- Parsing the writer's own line (newline stripped) when the outcome is
START, DONE or FAIL: the reader recovers exactly the step name and the
outcome, for any timestamp without `]` and any step name made of word
characters. -/
theorem parse_logLineBody (ts : String) (e : LogEntry)
    (hts : ']' ∉ ts.data) (hsd : e.step.data ≠ [])
    (hw : ∀ c ∈ e.step.data, isWordChar c = true) (ho : e.outcome ≠ .SKIP) :
    parseLogLine (logLineBody ts e) = some (e.step, e.outcome) := by
  obtain ⟨c0, sd0, hsplit⟩ : ∃ c0 sd0, e.step.data = c0 :: sd0 := by
    cases h : e.step.data with
    | nil => exact absurd h hsd
    | cons a b => exact ⟨a, b, rfl⟩
  have hdata := logLineBody_data ts e
  rw [hsplit, List.cons_append] at hdata
  have hw2 : ∀ c ∈ c0 :: sd0, isWordChar c = true := by rw [← hsplit]; exact hw
  have htail := matchTail_eval c0 sd0
    (List.replicate (20 - e.step.length) ' ')
    ((outcomeText e.outcome).data ++
      (' ' :: (List.replicate (10 - (outcomeText e.outcome).length) ' ' ++
        e.detail.data)))
    hw2 (fun c hc => List.eq_of_mem_replicate hc ▸ rfl)
    (outcome_remainder_head e)
  have hmk : String.mk (c0 :: sd0) = e.step := by
    rw [← hsplit]
  simp only [parseLogLine, hdata]
  rw [matchAfterBracket_append ts.data _ hts, htail, hmk]
  have hstart : ("START" : String).data = ['S', 'T', 'A', 'R', 'T'] := rfl
  have hdone : ("DONE" : String).data = ['D', 'O', 'N', 'E'] := rfl
  cases hoc : e.outcome with
  | START =>
    simp only [outcomeText]
    rw [if_pos (List.isPrefixOf_iff_prefix.mpr (List.prefix_append _ _))]
  | DONE =>
    simp only [outcomeText]
    rw [if_neg (by simp [hstart, show ("DONE" : String).data = ['D', 'O', 'N', 'E'] from rfl,
        List.isPrefixOf]),
      if_pos (List.isPrefixOf_iff_prefix.mpr (List.prefix_append _ _))]
  | FAIL =>
    simp only [outcomeText]
    rw [if_neg (by simp [hstart, show ("FAIL" : String).data = ['F', 'A', 'I', 'L'] from rfl,
        List.isPrefixOf]),
      if_neg (by simp [hdone, show ("FAIL" : String).data = ['F', 'A', 'I', 'L'] from rfl,
        List.isPrefixOf]),
      if_pos (List.isPrefixOf_iff_prefix.mpr (List.prefix_append _ _))]
  | SKIP => exact absurd hoc ho

/-- Parsing the writer's own SKIP line: none of the three outcome literals
of the reader's pattern matches, and — when neither the timestamp nor the
detail contains `]` — no later bracket rescues the match, so the reader
ignores the line. -/
theorem parse_logLineBody_skip (ts : String) (e : LogEntry)
    (hts : ']' ∉ ts.data) (hsd : e.step.data ≠ [])
    (hw : ∀ c ∈ e.step.data, isWordChar c = true) (ho : e.outcome = .SKIP)
    (hd : ']' ∉ e.detail.data) :
    parseLogLine (logLineBody ts e) = none := by
  obtain ⟨c0, sd0, hsplit⟩ : ∃ c0 sd0, e.step.data = c0 :: sd0 := by
    cases h : e.step.data with
    | nil => exact absurd h hsd
    | cons a b => exact ⟨a, b, rfl⟩
  have hdata := logLineBody_data ts e
  rw [hsplit, List.cons_append] at hdata
  have hw2 : ∀ c ∈ c0 :: sd0, isWordChar c = true := by rw [← hsplit]; exact hw
  have htail := matchTail_eval c0 sd0
    (List.replicate (20 - e.step.length) ' ')
    ((outcomeText e.outcome).data ++
      (' ' :: (List.replicate (10 - (outcomeText e.outcome).length) ' ' ++
        e.detail.data)))
    hw2 (fun c hc => List.eq_of_mem_replicate hc ▸ rfl)
    (outcome_remainder_head e)
  simp only [parseLogLine, hdata]
  rw [matchAfterBracket_append ts.data _ hts, htail]
  rw [ho]
  simp only [outcomeText]
  have hskip : ("SKIP" : String).data = ['S', 'K', 'I', 'P'] := rfl
  rw [if_neg (by simp [hskip, show ("START" : String).data = ['S', 'T', 'A', 'R', 'T'] from rfl,
      List.isPrefixOf]),
    if_neg (by simp [hskip, show ("DONE" : String).data = ['D', 'O', 'N', 'E'] from rfl,
      List.isPrefixOf]),
    if_neg (by simp [hskip, show ("FAIL" : String).data = ['F', 'A', 'I', 'L'] from rfl,
      List.isPrefixOf])]
  refine matchAfterBracket_none _ (fun hmem => ?_)
  rcases List.mem_cons.mp hmem with h0 | hm1
  · exact absurd h0 (by decide)
  rcases List.mem_cons.mp hm1 with h0 | hm2
  · exact wordChar_ne_rbracket c0 (hw2 c0 (List.mem_cons_self _ _)) h0.symm
  rcases List.mem_append.mp hm2 with h0 | hm3
  · exact wordChar_ne_rbracket ']' (hw2 ']' (List.mem_cons_of_mem _ h0)) rfl
  rcases List.mem_cons.mp hm3 with h0 | hm4
  · exact absurd h0 (by decide)
  rcases List.mem_append.mp hm4 with h0 | hm5
  · exact absurd (List.eq_of_mem_replicate h0) (by decide)
  rcases List.mem_append.mp hm5 with h0 | hm6
  · exact absurd h0 (by decide)
  rcases List.mem_cons.mp hm6 with h0 | hm7
  · exact absurd h0 (by decide)
  rcases List.mem_append.mp hm7 with h0 | h0
  · exact absurd (List.eq_of_mem_replicate h0) (by decide)
  · exact hd h0

/-- Reading a log that grew at the end: fold the new lines onto the status
for the old lines. -/
theorem loadEpisodeSteps_append (l1 l2 : List String) (step : String) :
    loadEpisodeSteps (l1 ++ l2) step =
      l2.foldl
        (fun acc line =>
          match parseLogLine line with
          | some (s, o) => if s == step then some o else acc
          | none => acc)
        (loadEpisodeSteps l1 step) := by
  unfold loadEpisodeSteps
  rw [List.foldl_append]

/-- Counterexample to claim C5: a log holding a START entry then a SKIP
entry for the audio step, both written in the orchestrator's own format.
The claim's reader (SKIP among the matched outcomes, modelled from the
spec) reports the most recent outcome SKIP; the code's reader pattern
matches only START|DONE|FAIL, ignores the SKIP line, and reports START. -/
theorem C5_counterexample :
    loadEpisodeSteps
        [logLineBody "2024-01-01 00:00:00 UTC" ⟨"audio", .START, "go"⟩,
         logLineBody "2024-01-01 00:00:05 UTC" ⟨"audio", .SKIP, "already"⟩]
        "audio" = some .START ∧
    loadEpisodeStepsSpec
        [logLineBody "2024-01-01 00:00:00 UTC" ⟨"audio", .START, "go"⟩,
         logLineBody "2024-01-01 00:00:05 UTC" ⟨"audio", .SKIP, "already"⟩]
        "audio" = some .SKIP := by
  constructor <;> decide

/-- Claim C5 as amended: the reader assigns each step the outcome of its
most recent matching entry in append order, where a line matches only with
outcome START, DONE or FAIL — a SKIP line written by the orchestrator is
ignored like any other non-matching line (it leaves the status unchanged).
Appending START then DONE for a step yields DONE, whatever came before. -/
theorem C5_reader (lines : List String) (ts1 ts2 s d1 d2 : String)
    (hts1 : ']' ∉ ts1.data) (hts2 : ']' ∉ ts2.data)
    (hsd : s.data ≠ []) (hw : ∀ c ∈ s.data, isWordChar c = true) :
    loadEpisodeSteps (lines ++
        [logLineBody ts1 ⟨s, .START, d1⟩, logLineBody ts2 ⟨s, .DONE, d2⟩]) s =
      some .DONE ∧
    (∀ ts3 d3, ']' ∉ ts3.data → ']' ∉ d3.data →
      loadEpisodeSteps (lines ++ [logLineBody ts3 ⟨s, .SKIP, d3⟩]) s =
        loadEpisodeSteps lines s) ∧
    (∀ line, parseLogLine line = none →
      loadEpisodeSteps (lines ++ [line]) s = loadEpisodeSteps lines s) := by
  refine ⟨?_, ?_, ?_⟩
  · rw [loadEpisodeSteps_append]
    simp only [List.foldl_cons, List.foldl_nil]
    rw [parse_logLineBody ts1 ⟨s, .START, d1⟩ hts1 hsd hw
        (fun h => Outcome.noConfusion h),
      parse_logLineBody ts2 ⟨s, .DONE, d2⟩ hts2 hsd hw
        (fun h => Outcome.noConfusion h)]
    simp
  · intro ts3 d3 h3 hd3
    rw [loadEpisodeSteps_append]
    simp only [List.foldl_cons, List.foldl_nil]
    rw [parse_logLineBody_skip ts3 ⟨s, .SKIP, d3⟩ h3 hsd hw rfl hd3]
  · intro line hline
    rw [loadEpisodeSteps_append]
    simp only [List.foldl_cons, List.foldl_nil]
    rw [hline]

/-- Witness for C5's amended theorem: an empty prior log, then START and
DONE for the audio step. -/
theorem C5_reader_witness :
    (']' ∉ ("2024-01-01 00:00:00 UTC" : String).data ∧
     ']' ∉ ("2024-01-01 00:00:05 UTC" : String).data ∧
     ("audio" : String).data ≠ [] ∧
     (∀ c ∈ ("audio" : String).data, isWordChar c = true)) ∧
    loadEpisodeSteps ([] ++
        [logLineBody "2024-01-01 00:00:00 UTC" ⟨"audio", .START, "Transcribing"⟩,
         logLineBody "2024-01-01 00:00:05 UTC" ⟨"audio", .DONE, "34 KB"⟩]) "audio" =
      some .DONE :=
  ⟨⟨by decide, by decide, by decide, by decide⟩,
   (C5_reader [] "2024-01-01 00:00:00 UTC" "2024-01-01 00:00:05 UTC" "audio"
      "Transcribing" "34 KB" (by decide) (by decide) (by decide) (by decide)).1⟩

/-- Claim C9: the feed_update step is batch/global.  A successful
`update_rss_feed` regenerates a feed whose entries are exactly the episode
directories of the whole workspace that have both `metadata.toml` and
`audio.mp3`; it returns the feed URL `<website>/feed/podcast.xml`; and its
per-episode arguments (the current episode's audio path and metadata) do
not influence the result at all. -/
theorem C9_feed_batch (pc : PodcastConfig) (ws : List EpisodeDir)
    (ap : String) (em : Metadata)
    (hdirs : ∀ d ∈ ws, d.isDir = true ∧ startswith d.name "." = false) :
    (∀ n, n ∈ (update_rss_feed pc ws ap em).1 ↔
      ∃ d ∈ ws, d.name = n ∧ d.hasMetadata = true ∧ d.hasAudio = true) ∧
    (update_rss_feed pc ws ap em).2 = configWebsite pc ++ "/feed/podcast.xml" ∧
    (∀ ap2 em2, update_rss_feed pc ws ap em = update_rss_feed pc ws ap2 em2) := by
  refine ⟨?_, rfl, fun ap2 em2 => rfl⟩
  intro n
  unfold update_rss_feed episodeDirsListing
  simp only [List.mem_map]
  constructor
  · rintro ⟨d, hd, rfl⟩
    obtain ⟨hmem, hflags⟩ := List.mem_filter.mp hd
    obtain ⟨hws, _⟩ := List.mem_filter.mp (List.mem_mergeSort.mp hmem)
    obtain ⟨hmeta, haudio⟩ := Bool.and_eq_true_iff.mp hflags
    exact ⟨d, hws, rfl, hmeta, haudio⟩
  · rintro ⟨d, hws, rfl, hmeta, haudio⟩
    refine ⟨d, ?_, rfl⟩
    refine List.mem_filter.mpr ⟨List.mem_mergeSort.mpr (List.mem_filter.mpr ⟨hws, ?_⟩), ?_⟩
    · obtain ⟨hisdir, hnodot⟩ := hdirs d hws
      simp [hisdir, hnodot]
    · simp [hmeta, haudio]

/-- Witness for C9: a three-directory workspace in which only `ep001` has
both metadata and audio. -/
theorem C9_feed_batch_witness :
    (∀ d ∈ [(⟨"ep001", true, true, true⟩ : EpisodeDir),
        ⟨"ep002", true, true, false⟩, ⟨"ep003", true, false, true⟩],
      d.isDir = true ∧ startswith d.name "." = false) ∧
    ((∀ n, n ∈ (update_rss_feed ⟨some "https://pod.example", none⟩
        [⟨"ep001", true, true, true⟩, ⟨"ep002", true, true, false⟩,
         ⟨"ep003", true, false, true⟩] "audio.mp3" metaAllOn).1 ↔
      ∃ d ∈ [(⟨"ep001", true, true, true⟩ : EpisodeDir),
        ⟨"ep002", true, true, false⟩, ⟨"ep003", true, false, true⟩],
        d.name = n ∧ d.hasMetadata = true ∧ d.hasAudio = true) ∧
     (update_rss_feed ⟨some "https://pod.example", none⟩
        [⟨"ep001", true, true, true⟩, ⟨"ep002", true, true, false⟩,
         ⟨"ep003", true, false, true⟩] "audio.mp3" metaAllOn).2 =
       configWebsite ⟨some "https://pod.example", none⟩ ++ "/feed/podcast.xml" ∧
     (∀ ap2 em2, update_rss_feed ⟨some "https://pod.example", none⟩
        [⟨"ep001", true, true, true⟩, ⟨"ep002", true, true, false⟩,
         ⟨"ep003", true, false, true⟩] "audio.mp3" metaAllOn =
       update_rss_feed ⟨some "https://pod.example", none⟩
        [⟨"ep001", true, true, true⟩, ⟨"ep002", true, true, false⟩,
         ⟨"ep003", true, false, true⟩] ap2 em2)) :=
  ⟨by decide,
   C9_feed_batch ⟨some "https://pod.example", none⟩
     [⟨"ep001", true, true, true⟩, ⟨"ep002", true, true, false⟩,
      ⟨"ep003", true, false, true⟩] "audio.mp3" metaAllOn (by decide)⟩

/-! ### Order invariance -/

theorem contains_congr_of_perm (rs rs2 : List String) (h : rs.Perm rs2)
    (a : String) : rs.contains a = rs2.contains a := by
  by_cases hm : a ∈ rs
  · have h1 : rs.contains a = true := List.elem_iff.mpr hm
    have h2 : rs2.contains a = true := List.elem_iff.mpr (h.mem_iff.mp hm)
    rw [h1, h2]
  · have h1 : rs.contains a = false := by
      cases hq : rs.contains a
      · rfl
      · exact absurd (List.elem_iff.mp hq) hm
    have h2 : rs2.contains a = false := by
      cases hq : rs2.contains a
      · rfl
      · exact absurd (h.mem_iff.mpr (List.elem_iff.mp hq)) hm
    rw [h1, h2]

/-- The run depends on the requested steps only through membership. -/
theorem publishStepsRun_congr (m : Metadata) (st : EpisodeFiles)
    (ex : Executors) (rs rs2 : List String)
    (h : ∀ a, rs.contains a = rs2.contains a) :
    publishStepsRun m rs st ex = publishStepsRun m rs2 st ex := by
  unfold publishStepsRun
  rw [h "audio", h "transcript", h "show_notes", h "youtube", h "rss"]

theorem sorted_of_const {l : List Nat} {c : Nat} (h : ∀ x ∈ l, x = c) :
    l.Sorted (· ≤ ·) := by
  induction l with
  | nil => exact List.sorted_nil
  | cons a t ih =>
    rw [List.sorted_cons]
    refine ⟨fun b hb => ?_, ih fun x hx => h x (List.mem_cons_of_mem _ hx)⟩
    rw [h a (List.mem_cons_self _ _), h b (List.mem_cons_of_mem _ hb)]

theorem sorted_five {A T S Y R : List Nat}
    (hA : ∀ x ∈ A, x = 0) (hT : ∀ x ∈ T, x = 1) (hS : ∀ x ∈ S, x = 2)
    (hY : ∀ x ∈ Y, x = 3) (hR : ∀ x ∈ R, x = 4) :
    (A ++ T ++ S ++ Y ++ R).Sorted (· ≤ ·) := by
  refine List.pairwise_append.mpr ⟨?_, sorted_of_const hR, ?_⟩
  · refine List.pairwise_append.mpr ⟨?_, sorted_of_const hY, ?_⟩
    · refine List.pairwise_append.mpr ⟨?_, sorted_of_const hS, ?_⟩
      · refine List.pairwise_append.mpr
          ⟨sorted_of_const hA, sorted_of_const hT, ?_⟩
        intro a ha b hb
        rw [hA a ha, hT b hb]
        omega
      · intro a ha b hb
        rw [hS b hb]
        rcases List.mem_append.mp ha with h | h
        · rw [hA a h]; omega
        · rw [hT a h]; omega
    · intro a ha b hb
      rw [hY b hb]
      rcases List.mem_append.mp ha with h | h
      · rcases List.mem_append.mp h with h2 | h2
        · rw [hA a h2]; omega
        · rw [hT a h2]; omega
      · rw [hS a h]; omega
  · intro a ha b hb
    rw [hR b hb]
    rcases List.mem_append.mp ha with h | h
    · rcases List.mem_append.mp h with h2 | h2
      · rcases List.mem_append.mp h2 with h3 | h3
        · rw [hA a h3]; omega
        · rw [hT a h3]; omega
      · rw [hS a h2]; omega
    · rw [hY a h]; omega

theorem map_stepIndex_const {l : List LogEntry} {s : String}
    (h : ∀ e ∈ l, e.step = s) :
    ∀ x ∈ l.map (fun e => stepIndex e.step), x = stepIndex s := by
  intro x hx
  rcases List.mem_map.mp hx with ⟨e, he, rfl⟩
  rw [h e he]

/-- The log of any run lists steps in non-decreasing pipeline order. -/
theorem run_stepIndex_sorted (m : Metadata) (rs : List String)
    (st : EpisodeFiles) (ex : Executors) :
    ((publishStepsRun m rs st ex).1.map
      (fun e => stepIndex e.step)).Sorted (· ≤ ·) := by
  cases hh : runHalts m rs st ex with
  | true =>
    rw [publishStepsRun_eq_halt m rs st ex hh]
    exact sorted_of_const
      (map_stepIndex_const (audioStep_mem_step m st ex.audioExec))
  | false =>
    rw [publishStepsRun_eq_nohalt m rs st ex hh]
    simp only [List.map_append]
    exact sorted_five
      (map_stepIndex_const (logA_mem_step m rs st ex))
      (map_stepIndex_const (logT_mem_step m rs st ex))
      (map_stepIndex_const (logS_mem_step m rs st ex))
      (map_stepIndex_const (logY_mem_step m rs st ex))
      (map_stepIndex_const (logR_mem_step m rs st ex))

/-- Counterexample to claim C4: the claim says the steps attempted by a
run are exactly the requested steps, for every requested subset.  Request
audio and youtube on an episode whose youtube publish flag is off: the run
completes normally (audio is attempted and succeeds) yet the youtube step
is never attempted — it leaves no log entry at all — so the attempted
steps are a strict subset of the requested ones. -/
theorem C4_counterexample :
    "youtube" ∈ ["audio", "youtube"] ∧
    (publishStepsRun metaAllOff ["audio", "youtube"] stVideoOnly exAllOk).1.filter
        (fun e => e.step == "youtube") = [] ∧
    (publishStepsRun metaAllOff ["audio", "youtube"] stVideoOnly exAllOk).1.map
        (fun e => (e.step, e.outcome)) =
      [("audio", .START), ("audio", .DONE)] := by
  refine ⟨by decide, by decide, by decide⟩

/-- Claim C4 as amended: order invariance of requests holds — permuting
the requested list does not change the run at all, and the log always
lists steps in the fixed enumeration order audio → transcript →
show_notes → youtube → rss.  But the steps attempted are exactly the
requested ones only in a run that is not halted by an audio failure and
whose gated steps' publish flags are enabled; a requested gated step with
its flag off, or any step after an audio failure, is not attempted at
all. -/
theorem C4_order_invariance (m : Metadata) (st : EpisodeFiles)
    (ex : Executors) (rs rs2 : List String) (hperm : rs.Perm rs2) :
    publish_episode (some m) (some rs) st ex =
      publish_episode (some m) (some rs2) st ex ∧
    ((publishStepsRun m rs st ex).1.map
      (fun e => stepIndex e.step)).Sorted (· ≤ ·) ∧
    (runHalts m rs st ex = false → m.pubYoutube = true →
      (m.pubSpotify || m.pubApple) = true →
      ∀ s ∈ all_steps,
        ((publishStepsRun m rs st ex).1.filter (fun e => e.step == s) ≠ [] ↔
          s ∈ rs)) := by
  refine ⟨?_, run_stepIndex_sorted m rs st ex, ?_⟩
  · have hmask := contains_congr_of_perm rs rs2 hperm
    by_cases hnil : rs = []
    · subst hnil
      have h2 : rs2 = [] := (List.Perm.nil_eq hperm).symm
      subst h2
      rfl
    · have h2 : rs2 ≠ [] := by
        intro hh
        subst hh
        exact hnil (List.Perm.nil_eq hperm.symm).symm
      have e1 : runStepsOf (some rs) = rs := by
        cases rs with
        | nil => exact absurd rfl hnil
        | cons a t => rfl
      have e2 : runStepsOf (some rs2) = rs2 := by
        cases rs2 with
        | nil => exact absurd rfl h2
        | cons a t => rfl
      simp only [publish_episode, e1, e2]
      rw [publishStepsRun_congr m st ex rs rs2 hmask]
  · intro hnh hyt hsa s hs
    have hmem : s = "audio" ∨ s = "transcript" ∨ s = "show_notes" ∨
        s = "youtube" ∨ s = "rss" := by simpa [all_steps] using hs
    have hbr : ∀ a : String, a ∈ rs ↔ rs.contains a = true :=
      fun a => (List.elem_iff).symm
    rcases hmem with rfl | rfl | rfl | rfl | rfl
    · rw [run_filter_audio m rs st ex hnh]
      unfold logA
      cases hc : rs.contains "audio"
      · rw [if_neg (by simp)]
        refine iff_of_false (by simp) (fun hm => ?_)
        have h2 := (hbr "audio").mp hm
        rw [hc] at h2
        exact Bool.noConfusion h2
      · rw [if_pos rfl]
        exact iff_of_true (audioStep_ne_nil m st ex.audioExec)
          ((hbr "audio").mpr hc)
    · rw [run_filter_transcript m rs st ex hnh]
      unfold logT
      cases hc : rs.contains "transcript"
      · rw [if_neg (by simp)]
        refine iff_of_false (by simp) (fun hm => ?_)
        have h2 := (hbr "transcript").mp hm
        rw [hc] at h2
        exact Bool.noConfusion h2
      · rw [if_pos rfl]
        exact iff_of_true (transcriptStep_ne_nil _ _)
          ((hbr "transcript").mpr hc)
    · rw [run_filter_show_notes m rs st ex hnh]
      unfold logS
      cases hc : rs.contains "show_notes"
      · rw [if_neg (by simp)]
        refine iff_of_false (by simp) (fun hm => ?_)
        have h2 := (hbr "show_notes").mp hm
        rw [hc] at h2
        exact Bool.noConfusion h2
      · rw [if_pos rfl]
        exact iff_of_true (showNotesStep_ne_nil _ _)
          ((hbr "show_notes").mpr hc)
    · rw [run_filter_youtube m rs st ex hnh]
      unfold logY
      cases hc : rs.contains "youtube"
      · rw [if_neg (by simp)]
        refine iff_of_false (by simp) (fun hm => ?_)
        have h2 := (hbr "youtube").mp hm
        rw [hc] at h2
        exact Bool.noConfusion h2
      · rw [hyt, if_pos (show (true && true) = true from rfl)]
        exact iff_of_true (youtubeStep_ne_nil _ _)
          ((hbr "youtube").mpr hc)
    · rw [run_filter_rss m rs st ex hnh]
      unfold logR
      cases hc : rs.contains "rss"
      · rw [if_neg (by simp)]
        refine iff_of_false (by simp) (fun hm => ?_)
        have h2 := (hbr "rss").mp hm
        rw [hc] at h2
        exact Bool.noConfusion h2
      · rw [hsa, if_pos (show (true && true) = true from rfl)]
        exact iff_of_true (rssStep_ne_nil _ _)
          ((hbr "rss").mpr hc)

/-- Witness for C4 at a concrete permuted pair of requests. -/
theorem C4_order_invariance_witness :
    (["rss", "audio"].Perm ["audio", "rss"] ∧
     runHalts metaAllOn ["rss", "audio"] stVideoOnly exAllOk = false ∧
     metaAllOn.pubYoutube = true ∧
     (metaAllOn.pubSpotify || metaAllOn.pubApple) = true) ∧
    publish_episode (some metaAllOn) (some ["rss", "audio"]) stVideoOnly exAllOk =
      publish_episode (some metaAllOn) (some ["audio", "rss"]) stVideoOnly exAllOk ∧
    ((publishStepsRun metaAllOn ["rss", "audio"] stVideoOnly exAllOk).1.map
      (fun e => stepIndex e.step)).Sorted (· ≤ ·) :=
  ⟨⟨List.Perm.swap _ _ _, by decide, rfl, rfl⟩,
   (C4_order_invariance metaAllOn stVideoOnly exAllOk ["rss", "audio"]
      ["audio", "rss"] (List.Perm.swap _ _ _)).1,
   (C4_order_invariance metaAllOn stVideoOnly exAllOk ["rss", "audio"]
      ["audio", "rss"] (List.Perm.swap _ _ _)).2.1⟩

/-! ### Idempotence -/

/-- A run whose audio executor succeeds never halts early. -/
theorem runHalts_of_ok (m : Metadata) (rs : List String) (st : EpisodeFiles)
    (ex : Executors) (hok : ex.audioExec.isOk = true) :
    runHalts m rs st ex = false := by
  unfold runHalts
  rw [audioStep_halt_iff, hok]
  simp

theorem runSt3_hasVideo (m : Metadata) (rs : List String) (st : EpisodeFiles)
    (ex : Executors) : (runSt3 m rs st ex).hasVideo = st.hasVideo := by
  unfold runSt3 runSt2 runSt1
  split
  · rw [showNotesStep_state]
    split
    · rw [transcriptStep_state]
      split
      · rw [audioStep_state]
      · rfl
    · split
      · rw [audioStep_state]
      · rfl
  · split
    · rw [transcriptStep_state]
      split
      · rw [audioStep_state]
      · rfl
    · split
      · rw [audioStep_state]
      · rfl

theorem runSt3_hasAudio (m : Metadata) (rs : List String) (st : EpisodeFiles)
    (ex : Executors) :
    (runSt3 m rs st ex).hasAudio = (runSt1 m rs st ex).hasAudio := by
  unfold runSt3 runSt2
  split
  · rw [showNotesStep_state]
    split
    · rw [transcriptStep_state]
    · rfl
  · split
    · rw [transcriptStep_state]
    · rfl

theorem runSt3_hasTranscript (m : Metadata) (rs : List String)
    (st : EpisodeFiles) (ex : Executors) :
    (runSt3 m rs st ex).hasTranscript = (runSt2 m rs st ex).hasTranscript := by
  unfold runSt3
  split
  · rw [showNotesStep_state]
  · rfl

theorem runSt1_hasAudio_of_ok (m : Metadata) (rs : List String)
    (st : EpisodeFiles) (ex : Executors) (hca : rs.contains "audio" = true)
    (hok : ex.audioExec.isOk = true) :
    (runSt1 m rs st ex).hasAudio = (st.hasAudio || st.hasVideo) := by
  unfold runSt1
  rw [if_pos hca, audioStep_state, hok]
  simp

theorem runSt1_hasVideo (m : Metadata) (rs : List String) (st : EpisodeFiles)
    (ex : Executors) : (runSt1 m rs st ex).hasVideo = st.hasVideo := by
  unfold runSt1
  split
  · rw [audioStep_state]
  · rfl

theorem runSt2_hasTranscript_of_ok (m : Metadata) (rs : List String)
    (st : EpisodeFiles) (ex : Executors)
    (hct : rs.contains "transcript" = true)
    (hok : ex.transcriptExec.isOk = true) :
    (runSt2 m rs st ex).hasTranscript =
      ((runSt1 m rs st ex).hasTranscript || (runSt1 m rs st ex).hasAudio) := by
  unfold runSt2
  rw [if_pos hct, transcriptStep_state, hok]
  simp

theorem runSt3_hasShowNotes_of_ok (m : Metadata) (rs : List String)
    (st : EpisodeFiles) (ex : Executors)
    (hcs : rs.contains "show_notes" = true)
    (hok : ex.showNotesExec.isOk = true) :
    (runSt3 m rs st ex).hasShowNotes =
      ((runSt2 m rs st ex).hasShowNotes || (runSt2 m rs st ex).hasTranscript) := by
  unfold runSt3
  rw [if_pos hcs, showNotesStep_state, hok]
  simp

/-- The final state of an all-local-executors-ok run is stable for the
audio block: a video present implies the audio artifact present, whenever
the audio step was requested. -/
theorem runSt3_audio_stable (m : Metadata) (rs : List String)
    (st : EpisodeFiles) (ex : Executors) (hok : ex.audioExec.isOk = true)
    (hca : rs.contains "audio" = true)
    (hv : (runSt3 m rs st ex).hasVideo = true) :
    (runSt3 m rs st ex).hasAudio = true := by
  rw [runSt3_hasVideo] at hv
  rw [runSt3_hasAudio, runSt1_hasAudio_of_ok m rs st ex hca hok, hv]
  simp

theorem runSt3_transcript_stable (m : Metadata) (rs : List String)
    (st : EpisodeFiles) (ex : Executors)
    (hok : ex.transcriptExec.isOk = true)
    (hct : rs.contains "transcript" = true)
    (ha : (runSt3 m rs st ex).hasAudio = true) :
    (runSt3 m rs st ex).hasTranscript = true := by
  rw [runSt3_hasAudio] at ha
  rw [runSt3_hasTranscript, runSt2_hasTranscript_of_ok m rs st ex hct hok, ha]
  simp

theorem runSt3_showNotes_stable (m : Metadata) (rs : List String)
    (st : EpisodeFiles) (ex : Executors)
    (hok : ex.showNotesExec.isOk = true)
    (hcs : rs.contains "show_notes" = true)
    (ht : (runSt3 m rs st ex).hasTranscript = true) :
    (runSt3 m rs st ex).hasShowNotes = true := by
  rw [runSt3_hasTranscript] at ht
  rw [runSt3_hasShowNotes_of_ok m rs st ex hcs hok, ht]
  simp

/-- Second-run audio block on a stable state: only SKIP entries and no
state change. -/
theorem second_audio_block (m : Metadata) (rs : List String)
    (st1 : EpisodeFiles) (ex : Executors)
    (h : rs.contains "audio" = true → st1.hasVideo = true →
      st1.hasAudio = true) :
    (∀ e ∈ logA m rs st1 ex, e.outcome = .SKIP) ∧
      runSt1 m rs st1 ex = st1 := by
  unfold logA runSt1
  cases hc : rs.contains "audio"
  · simp
  · obtain ⟨h1, h2, _⟩ := audioStep_skip_of_stable m st1 ex.audioExec (h hc)
    rw [if_pos rfl, if_pos rfl]
    exact ⟨h1, h2⟩

theorem second_transcript_block (m : Metadata) (rs : List String)
    (st1 : EpisodeFiles) (ex : Executors)
    (hfix : runSt1 m rs st1 ex = st1)
    (h : rs.contains "transcript" = true → st1.hasAudio = true →
      st1.hasTranscript = true) :
    (∀ e ∈ logT m rs st1 ex, e.outcome = .SKIP) ∧
      runSt2 m rs st1 ex = st1 := by
  unfold logT runSt2
  rw [hfix]
  cases hc : rs.contains "transcript"
  · simp
  · obtain ⟨h1, h2⟩ := transcriptStep_skip_of_stable st1 ex.transcriptExec (h hc)
    rw [if_pos rfl, if_pos rfl]
    exact ⟨h1, h2⟩

theorem second_showNotes_block (m : Metadata) (rs : List String)
    (st1 : EpisodeFiles) (ex : Executors)
    (hfix : runSt2 m rs st1 ex = st1)
    (h : rs.contains "show_notes" = true → st1.hasTranscript = true →
      st1.hasShowNotes = true) :
    (∀ e ∈ logS m rs st1 ex, e.outcome = .SKIP) ∧
      runSt3 m rs st1 ex = st1 := by
  unfold logS runSt3
  rw [hfix]
  cases hc : rs.contains "show_notes"
  · simp
  · obtain ⟨h1, h2⟩ := showNotesStep_skip_of_stable st1 ex.showNotesExec (h hc)
    rw [if_pos rfl, if_pos rfl]
    exact ⟨h1, h2⟩

/-- Counterexample to claim C1: a full pipeline run on an episode with a
video file and every flag and executor succeeding, followed by a second
identical run.  The second run's outcomes are not all SKIP: the youtube
and rss steps re-execute (START then DONE) because the code has no
already-produced check for them. -/
theorem C1_counterexample :
    ((publishStepsRun metaAllOn all_steps
        (publishStepsRun metaAllOn all_steps stVideoOnly exAllOk).2
        exAllOk).1.map (fun e => (e.step, e.outcome))) =
      [("audio", .SKIP), ("transcript", .SKIP), ("show_notes", .SKIP),
       ("youtube", .START), ("youtube", .DONE),
       ("rss", .START), ("rss", .DONE)] ∧
    ((publishStepsRun metaAllOn all_steps
        (publishStepsRun metaAllOn all_steps stVideoOnly exAllOk).2
        exAllOk).1.all (fun e => e.outcome == .SKIP)) = false := by
  constructor
  · decide
  · decide

/-- Claim C1 as amended: after a run whose audio, transcript and
show-notes executors succeed, a second run with identical inputs leaves
the file state unchanged and logs only SKIP for the audio, transcript and
show_notes steps; the youtube and rss blocks, having no already-produced
check, behave exactly as in the first run — re-invoking their executors
when requested and enabled instead of skipping — so the second run is not
all-SKIP in general. -/
theorem C1_idempotence (m : Metadata) (rs : List String) (st : EpisodeFiles)
    (ex : Executors) (hokA : ex.audioExec.isOk = true)
    (hokT : ex.transcriptExec.isOk = true)
    (hokS : ex.showNotesExec.isOk = true) :
    (publishStepsRun m rs (publishStepsRun m rs st ex).2 ex).2 =
      (publishStepsRun m rs st ex).2 ∧
    (∀ e ∈ (publishStepsRun m rs (publishStepsRun m rs st ex).2 ex).1,
      e.step = "audio" ∨ e.step = "transcript" ∨ e.step = "show_notes" →
        e.outcome = .SKIP) ∧
    (publishStepsRun m rs (publishStepsRun m rs st ex).2 ex).1.filter
        (fun e => e.step == "youtube") =
      (publishStepsRun m rs st ex).1.filter (fun e => e.step == "youtube") ∧
    (publishStepsRun m rs (publishStepsRun m rs st ex).2 ex).1.filter
        (fun e => e.step == "rss") =
      (publishStepsRun m rs st ex).1.filter (fun e => e.step == "rss") := by
  have hnh1 : runHalts m rs st ex = false := runHalts_of_ok m rs st ex hokA
  have hst1 : (publishStepsRun m rs st ex).2 = runSt3 m rs st ex := by
    rw [publishStepsRun_eq_nohalt m rs st ex hnh1]
  rw [hst1]
  have hnh2 : runHalts m rs (runSt3 m rs st ex) ex = false :=
    runHalts_of_ok m rs (runSt3 m rs st ex) ex hokA
  obtain ⟨hA, hfix1⟩ := second_audio_block m rs (runSt3 m rs st ex) ex
    (fun hca hv => runSt3_audio_stable m rs st ex hokA hca hv)
  obtain ⟨hT, hfix2⟩ := second_transcript_block m rs (runSt3 m rs st ex) ex
    hfix1 (fun hct ha => runSt3_transcript_stable m rs st ex hokT hct ha)
  obtain ⟨hS, hfix3⟩ := second_showNotes_block m rs (runSt3 m rs st ex) ex
    hfix2 (fun hcs ht => runSt3_showNotes_stable m rs st ex hokS hcs ht)
  refine ⟨?_, ?_, ?_, ?_⟩
  · rw [publishStepsRun_eq_nohalt m rs (runSt3 m rs st ex) ex hnh2]
    exact hfix3
  · intro e he hstep
    rw [publishStepsRun_eq_nohalt m rs (runSt3 m rs st ex) ex hnh2] at he
    rcases List.mem_append.mp he with h1 | hR
    · rcases List.mem_append.mp h1 with h2 | hY
      · rcases List.mem_append.mp h2 with h3 | hS2
        · rcases List.mem_append.mp h3 with hA2 | hT2
          · exact hA e hA2
          · exact hT e hT2
        · exact hS e hS2
      · rcases hstep with hh | hh | hh <;>
          (rw [logY_mem_step m rs (runSt3 m rs st ex) ex e hY] at hh;
            exact absurd hh (by decide))
    · rcases hstep with hh | hh | hh <;>
        (rw [logR_mem_step m rs (runSt3 m rs st ex) ex e hR] at hh;
          exact absurd hh (by decide))
  · rw [run_filter_youtube m rs (runSt3 m rs st ex) ex hnh2,
      run_filter_youtube m rs st ex hnh1]
    unfold logY
    rw [hfix3]
  · rw [run_filter_rss m rs (runSt3 m rs st ex) ex hnh2,
      run_filter_rss m rs st ex hnh1]
    unfold logR
    rw [hfix3]

/-- Witness for C1's amended theorem on the concrete two-run scenario. -/
theorem C1_idempotence_witness :
    (exAllOk.audioExec.isOk = true ∧ exAllOk.transcriptExec.isOk = true ∧
      exAllOk.showNotesExec.isOk = true) ∧
    ((publishStepsRun metaAllOn all_steps
        (publishStepsRun metaAllOn all_steps stVideoOnly exAllOk).2
        exAllOk).2 =
      (publishStepsRun metaAllOn all_steps stVideoOnly exAllOk).2 ∧
     (publishStepsRun metaAllOn all_steps
        (publishStepsRun metaAllOn all_steps stVideoOnly exAllOk).2
        exAllOk).1.filter (fun e => e.step == "youtube") =
      (publishStepsRun metaAllOn all_steps stVideoOnly exAllOk).1.filter
        (fun e => e.step == "youtube")) :=
  ⟨⟨rfl, rfl, rfl⟩,
   (C1_idempotence metaAllOn all_steps stVideoOnly exAllOk rfl rfl rfl).1,
   (C1_idempotence metaAllOn all_steps stVideoOnly exAllOk rfl rfl rfl).2.2.1⟩

end BoringPodcast
